import Mathlib

/-
Verification development for the MailMemGPT email-triage and memory
orchestration engine.

The Python sources are shallowly embedded as executable Lean definitions:

* `src/utils/email_triage_manager.py` — similarity classifier with a
  generative (LLM) fallback (`classify_email`, `_classify_with_llm`).
* `src/utils/email_agent_v4.py` — the tool-calling orchestration loop
  (`_generate_response`, `execute_function_call`), memory deduplication
  (`_deduplicate_memory`) and summarization (`_summarize_memory`).
* `src/utils/email_history_manager.py` — summary creation and retrieval
  (`update_email_summary`, `get_latest_summary`, `get_latest_email_pairs`).
* `src/utils/email_tools.py` — the three built-in tools.

External collaborators (the OpenAI chat completion service, the ChromaDB
vector stores, the SQLite store) are modeled as oracle parameters: an LLM
reply is an `Option String` (`none` models a raised exception), a vector
query outcome is the list of returned distances, the SQL store is an
explicit list of rows.  Python strings are modeled as `List Char` where
character-level reasoning is needed (deduplication) and as `String`
elsewhere; `.strip()`/`.lower()` are modeled for ASCII text, which is the
alphabet of all field markers involved.  Python floats are modeled by `ℚ`
with exact arithmetic.
-/

namespace MailMem

/-! ## Python string primitives

Python `str` operations are modeled on `List Char` (and lifted to `String`
via the `data` field) so that every definition reduces in the kernel.  The
model covers ASCII text, which is the alphabet of all markers, labels and
status strings involved. -/

/-- Whitespace characters removed by Python's `str.strip()` (ASCII model). -/
def isSpaceChar (c : Char) : Bool :=
  c = ' ' || c = '\t' || c = '\n' || c = '\r'

/-- Python `str.strip()`: drop leading and trailing whitespace. -/
def pyStrip (l : List Char) : List Char :=
  ((l.dropWhile isSpaceChar).reverse.dropWhile isSpaceChar).reverse

/-- Lookup table of the ASCII uppercase/lowercase letter pairs. -/
def upperLowerPairs : List (Char × Char) :=
  [('A', 'a'), ('B', 'b'), ('C', 'c'), ('D', 'd'), ('E', 'e'), ('F', 'f'),
   ('G', 'g'), ('H', 'h'), ('I', 'i'), ('J', 'j'), ('K', 'k'), ('L', 'l'),
   ('M', 'm'), ('N', 'n'), ('O', 'o'), ('P', 'p'), ('Q', 'q'), ('R', 'r'),
   ('S', 's'), ('T', 't'), ('U', 'u'), ('V', 'v'), ('W', 'w'), ('X', 'x'),
   ('Y', 'y'), ('Z', 'z')]

/-- Python `str.lower()` on one ASCII character. -/
def lowerChar (c : Char) : Char :=
  ((upperLowerPairs.find? (fun p => p.1 = c)).map (fun p => p.2)).getD c

/-- Python `str.lower()` (ASCII model). -/
def pyLower (l : List Char) : List Char :=
  l.map lowerChar

/-- Python `str.strip()` lifted to `String`. -/
def stripStr (s : String) : String :=
  ⟨pyStrip s.data⟩

/-- Python `str.lower()` lifted to `String`. -/
def lowerStr (s : String) : String :=
  ⟨pyLower s.data⟩

/-! ## Classifier (`email_triage_manager.py`) -/

/-- Outcome of querying the three per-label ChromaDB collections: the list of
distances returned for each category.  An empty list models the `count == 0`
case, an empty query result, and the caught per-category exception — all of
which yield a `0.0` score in `classify_email`. -/
structure TriagePools where
  ignoreDists : List ℚ
  notifyDists : List ℚ
  respondDists : List ℚ
deriving DecidableEq

/-- Average similarity score of one category (`classify_email`, lines 96-124):
distances are converted by `1 - d` and averaged; no examples (or no results)
give `0.0`. -/
def poolScore (ds : List ℚ) : ℚ :=
  if ds.isEmpty then 0 else ((ds.map (fun d => 1 - d)).sum) / ds.length

/-- The generative fallback `_classify_with_llm` (lines 149-197): the model
reply is stripped and lowercased, validated against the three labels, any
invalid reply defaults to `respond`, and a raised exception (`none`) also
returns `respond`. -/
def classify_with_llm (resp : Option String) : String :=
  match resp with
  | none => "respond"
  | some s =>
    let c := lowerStr (stripStr s)
    if c = "ignore" ∨ c = "notify" ∨ c = "respond" then c else "respond"

/-- Python's `max(category_scores, key=category_scores.get)` over the dict
with insertion order ignore, notify, respond: the first maximal key wins;
a later key replaces the current best only when strictly greater. -/
def bestPair (sI sN sR : ℚ) : String × ℚ :=
  let fst := if sN > sI then (("notify" : String), sN) else (("ignore" : String), sI)
  if sR > fst.2 then (("respond" : String), sR) else fst

/-- Decision core of `classify_email` (lines 126-147), with the value returned
by `self._classify_with_llm(email_data)` abstracted as `llmLabel`:
if every pool scored `0.0` return the fallback label with confidence `0.5`;
otherwise take the best pool, and below the threshold consult the fallback,
discarding an out-of-domain fallback label in favour of the best pool. -/
def classify_email_core (p : TriagePools) (llmLabel : String) (thr : ℚ) : String × ℚ :=
  let sI := poolScore p.ignoreDists
  let sN := poolScore p.notifyDists
  let sR := poolScore p.respondDists
  if sI = 0 ∧ sN = 0 ∧ sR = 0 then
    (llmLabel, 1/2)
  else
    let best := bestPair sI sN sR
    if best.2 < thr then
      if ¬ (llmLabel = "ignore" ∨ llmLabel = "notify" ∨ llmLabel = "respond") then
        (best.1, best.2)
      else
        (llmLabel, best.2)
    else best

/-- Full `classify_email` with the fallback wired to `_classify_with_llm` exactly as
in the source; `resp` is the raw model reply of the fallback call. -/
def classify_email (p : TriagePools) (resp : Option String) (thr : ℚ) : String × ℚ :=
  classify_email_core p (classify_with_llm resp) thr

/-- Validation step of `process_email` (`email_agent_v4.py`, lines 182-187):
an out-of-domain label is coerced to `respond` with confidence `0.5`; the
confidence of an in-domain result is passed through unchanged. -/
def validate_classification (r : String × ℚ) : String × ℚ :=
  if r.1 = "ignore" ∨ r.1 = "notify" ∨ r.1 = "respond" then r else ("respond", 1/2)

/-! ### Claims C1, C3, C4, C10 -/

/-- C1: the claim states that `classify_email` always returns a confidence in
[0,1].  It does not: scores are unclamped `1 - distance` averages, and ChromaDB
squared-L2 distances exceed 1 routinely, making the returned confidence
negative.  With every pool returning one example at distance `3/2`, every pool
scores `-1/2`, the low-confidence fallback fires, and the caller receives
confidence `-1/2 ∉ [0,1]`; `process_email`'s validation passes it through
unchanged. -/
theorem classify_email_confidence_out_of_range :
    classify_email ⟨[3/2], [3/2], [3/2]⟩ (some "respond") (37/100) = ("respond", -(1/2)) ∧
    validate_classification
      (classify_email ⟨[3/2], [3/2], [3/2]⟩ (some "respond") (37/100)) = ("respond", -(1/2)) ∧
    ¬ (0 ≤ (-(1/2) : ℚ)) := by
  have hllm : classify_with_llm (some "respond") = "respond" := by decide
  have h1 : classify_email ⟨[3/2], [3/2], [3/2]⟩ (some "respond") (37/100) =
      ("respond", -(1/2)) := by
    unfold classify_email
    rw [hllm]
    unfold classify_email_core
    norm_num [poolScore, bestPair]
  refine ⟨h1, ?_, by norm_num⟩
  rw [h1]
  rfl

/-- C3: whenever every pool scores `0.0` (in particular when all three example
pools are empty), `classify_email` delegates to the generative fallback and
returns confidence exactly `0.5`. -/
theorem classify_email_all_zero_delegates (p : TriagePools) (resp : Option String) (thr : ℚ)
    (h : poolScore p.ignoreDists = 0 ∧ poolScore p.notifyDists = 0 ∧ poolScore p.respondDists = 0) :
    classify_email p resp thr = (classify_with_llm resp, 1/2) := by
  unfold classify_email classify_email_core
  simp only [h.1, h.2.1, h.2.2, and_self, if_true]

/-- Witness for C3: three empty pools take the fallback path with confidence
exactly `0.5`. -/
theorem classify_email_all_zero_delegates_witness :
    classify_email ⟨[], [], []⟩ none (37/100) = ("respond", 1/2) := by
  rw [classify_email_all_zero_delegates ⟨[], [], []⟩ none (37/100) ⟨rfl, rfl, rfl⟩]
  rfl

/-- C4: when not every pool scores zero but the best score is below the
threshold, `classify_email` re-runs the fallback; an out-of-domain fallback
label is discarded in favour of the best pool's label and score, and an
in-domain fallback label is returned paired with the best pool's similarity
score — never a fallback confidence. -/
theorem classify_email_low_confidence (p : TriagePools) (llmLabel : String) (thr : ℚ)
    (hnz : ¬ (poolScore p.ignoreDists = 0 ∧ poolScore p.notifyDists = 0 ∧
              poolScore p.respondDists = 0))
    (hlow : (bestPair (poolScore p.ignoreDists) (poolScore p.notifyDists)
              (poolScore p.respondDists)).2 < thr) :
    classify_email_core p llmLabel thr =
      if llmLabel = "ignore" ∨ llmLabel = "notify" ∨ llmLabel = "respond" then
        (llmLabel, (bestPair (poolScore p.ignoreDists) (poolScore p.notifyDists)
          (poolScore p.respondDists)).2)
      else
        ((bestPair (poolScore p.ignoreDists) (poolScore p.notifyDists)
            (poolScore p.respondDists)).1,
         (bestPair (poolScore p.ignoreDists) (poolScore p.notifyDists)
            (poolScore p.respondDists)).2) := by
  unfold classify_email_core
  simp only [if_neg hnz, if_pos hlow]
  by_cases hl : llmLabel = "ignore" ∨ llmLabel = "notify" ∨ llmLabel = "respond"
  · simp [hl]
  · simp [hl]

/-- Witness for C4: a single `ignore` example at distance `9/10` scores `1/10`,
which is below the `0.37` threshold, and the out-of-domain fallback label
`banana` is discarded in favour of the best pool. -/
theorem classify_email_low_confidence_witness :
    classify_email_core ⟨[9/10], [], []⟩ "banana" (37/100) = ("ignore", 1/10) := by
  have h := classify_email_low_confidence ⟨[9/10], [], []⟩ "banana" (37/100)
    (by norm_num [poolScore]) (by norm_num [poolScore, bestPair])
  have hif : ¬ (("banana" : String) = "ignore" ∨ ("banana" : String) = "notify" ∨
      ("banana" : String) = "respond") := by decide
  rw [h, if_neg hif]
  norm_num [poolScore, bestPair]

/-- C10: `_classify_with_llm` always returns one of the three labels (invalid
model output and raised exceptions are both coerced to `respond`), and
consequently the branch of `classify_email` that discards an out-of-domain
fallback label is unreachable: on every low-confidence path the fallback's
label is what is returned. -/
theorem classify_with_llm_in_domain_and_discard_unreachable
    (resp : Option String) (p : TriagePools) (thr : ℚ) :
    (classify_with_llm resp = "ignore" ∨ classify_with_llm resp = "notify" ∨
      classify_with_llm resp = "respond") ∧
    (¬ (poolScore p.ignoreDists = 0 ∧ poolScore p.notifyDists = 0 ∧
          poolScore p.respondDists = 0) →
      (bestPair (poolScore p.ignoreDists) (poolScore p.notifyDists)
          (poolScore p.respondDists)).2 < thr →
      classify_email p resp thr =
        (classify_with_llm resp,
         (bestPair (poolScore p.ignoreDists) (poolScore p.notifyDists)
            (poolScore p.respondDists)).2)) := by
  have hdom : classify_with_llm resp = "ignore" ∨ classify_with_llm resp = "notify" ∨
      classify_with_llm resp = "respond" := by
    unfold classify_with_llm
    match resp with
    | none => right; right; rfl
    | some s =>
      by_cases h : lowerStr (stripStr s) = "ignore" ∨ lowerStr (stripStr s) = "notify" ∨
          lowerStr (stripStr s) = "respond"
      · simp [h]
      · simp [h]
  refine ⟨hdom, fun hnz hlow => ?_⟩
  unfold classify_email
  rw [classify_email_low_confidence p (classify_with_llm resp) thr hnz hlow]
  simp [hdom]

/-- Witness for C10: with one `ignore` example at distance `9/10` (score `1/10`,
below threshold) and a sloppy model reply `" IGNORE "`, the fallback label
`ignore` is kept and paired with the similarity score. -/
theorem classify_with_llm_in_domain_witness :
    classify_email ⟨[9/10], [], []⟩ (some " IGNORE ") (37/100) = ("ignore", 1/10) := by
  have h := (classify_with_llm_in_domain_and_discard_unreachable
    (some " IGNORE ") ⟨[9/10], [], []⟩ (37/100)).2
    (by norm_num [poolScore]) (by norm_num [poolScore, bestPair])
  rw [h]
  have hllm : classify_with_llm (some " IGNORE ") = "ignore" := by decide
  rw [hllm]
  norm_num [poolScore, bestPair]

/-! ## Memory summarization (`email_agent_v4.py`, `_summarize_memory`) -/

/-- Modelled from the spec: `count_number_of_tokens` lives in `utils/utils.py`,
which is not among the sources; §4.2 of the spec gives "character-length ÷ 4"
as the token-count approximation, so the counter is modeled as length
divided by 4. -/
def count_number_of_tokens (l : List Char) : Nat :=
  l.length / 4

/-- Fixed part of the summarization prompt of `_summarize_memory`. -/
def summaryPromptHead : List Char :=
  ("Summarize the following email memory to reduce token count while keeping " ++
   "the most important context and key information:\n\n").toList

/-- Tail of the summarization prompt, with the token target interpolated. -/
def summaryPromptTail (target : Nat) : List Char :=
  ("\n\nProvide a concise summary focusing on:\n" ++
   "- Key topics and subjects discussed\n" ++
   "- Important decisions or agreements\n" ++
   "- Action items or follow-ups\n" ++
   "- Critical details that might be needed for future responses\n\n" ++
   "Keep the summary under " ++ Nat.repr target ++
   " tokens while preserving essential context.").toList

/-- Elision marker inserted by the truncation fallback. -/
def elisionMarker : List Char :=
  "\n\n[... truncated middle section ...]\n\n".toList

/-- Embedding of `_summarize_memory` (lines 431-483).  The chat-completion call is the
oracle `llm` applied to the constructed prompt; `none` models any raised
exception, which sends the function to the truncation fallback: texts longer
than 2000 characters keep the first 40% and last 40% of characters around the
elision marker, shorter texts are returned unchanged.  The float slices
`int(len*0.4)` / `int(len*0.6)` are modeled by exact rational truncation. -/
def summarize_memory (llm : List Char → Option (List Char)) (maxTokens : Nat)
    (memory : List Char) : List Char :=
  if memory.isEmpty then []
  else
    let target := maxTokens / 2
    let charsToInclude := min memory.length (target * 4)
    let prompt := summaryPromptHead ++ memory.take charsToInclude ++ summaryPromptTail target
    match llm prompt with
    | some out => out
    | none =>
      if 2000 < memory.length then
        memory.take ((2 * memory.length) / 5) ++ elisionMarker ++
          memory.drop ((3 * memory.length) / 5)
      else memory

/-! ### Claim C6 -/

/-- C6 counterexample: the model path enforces no token bound relative to the
input.  For the two-character memory `hi` (0 estimated tokens) an LLM reply of
100 characters (25 tokens, well under the `max_tokens // 2 = 400` cap passed to
the API) makes the summarization output strictly exceed the input's token
count. -/
theorem summarize_memory_model_path_not_monotonic :
    ¬ (count_number_of_tokens
        (summarize_memory (fun _ => some (List.replicate 100 'a')) 800 "hi".toList) ≤
       count_number_of_tokens "hi".toList) := by
  decide

/-- C6 amended: on the truncation-fallback path (the LLM call raised), the
output of `_summarize_memory` never has more estimated tokens than the input;
the model path is bounded only by the `max_tokens // 2` completion cap, not by
the input's token count. -/
theorem summarize_memory_fallback_monotonic (llm : List Char → Option (List Char))
    (maxTokens : Nat) (memory : List Char)
    (hfail : ∀ p, llm p = none) :
    count_number_of_tokens (summarize_memory llm maxTokens memory) ≤
      count_number_of_tokens memory := by
  unfold summarize_memory
  by_cases h0 : memory.isEmpty
  · simp [h0, count_number_of_tokens]
  · simp only [h0, if_false, Bool.false_eq_true, hfail]
    by_cases h2 : 2000 < memory.length
    · simp only [h2, if_true]
      unfold count_number_of_tokens
      apply Nat.div_le_div_right
      have hm : elisionMarker.length = 38 := by decide
      have ht : (memory.take ((2 * memory.length) / 5)).length =
          min ((2 * memory.length) / 5) memory.length := List.length_take _ _
      have hd : (memory.drop ((3 * memory.length) / 5)).length =
          memory.length - (3 * memory.length) / 5 := List.length_drop _ _
      simp only [List.length_append, ht, hd, hm]
      omega
    · simp [h2, count_number_of_tokens]

/-- Witness for C6 (amended): a memory of 3000 identical characters (750
tokens) truncates to 2438 characters (609 tokens) on the fallback path. -/
theorem summarize_memory_fallback_monotonic_witness :
    count_number_of_tokens
        (summarize_memory (fun _ => none) 800 (List.replicate 3000 'a')) ≤
      count_number_of_tokens (List.replicate 3000 'a') := by
  exact summarize_memory_fallback_monotonic (fun _ => none) 800
    (List.replicate 3000 'a') (fun _ => rfl)

/-! ## History summarization (`email_history_manager.py`) -/

/-- State of the relational store restricted to one session, plus the
manager's in-memory counter: `rows` are the `email_history` rows
(`email_body`, `response_text`) in insertion order, which coincides with
timestamp order; `summaries` are the session's `summary` rows in insertion
order.  The manager's `user_id` is assumed present (its absence only disables
writes). -/
structure HistDB where
  rows : List (String × String)
  summaries : List String
  pairs_since_last_summary : Nat
deriving DecidableEq

/-- Embedding of `get_latest_email_pairs` (lines 78-90): `ORDER BY timestamp DESC LIMIT
num_pairs * 2` followed by `list(reversed(...))` — note the limit is twice the
requested number of pairs although each returned row is already one pair. -/
def get_latest_email_pairs (db : HistDB) (num_pairs : Nat) : List (String × String) :=
  (db.rows.reverse.take (num_pairs * 2)).reverse

/-- Embedding of `get_latest_summary` (lines 92-103): most recent summary row by
timestamp, or `None` when the session has no summary. -/
def get_latest_summary (db : HistDB) : Option String :=
  db.summaries.getLast?

/-- Prompt built by `generate_the_new_summary` (lines 142-163): it folds in
the previous summary, when present, and all fetched pairs. -/
def buildSummaryPrompt (previous : Option String) (email_data : List (String × String)) :
    String :=
  "Summarize the following email conversations:\n\n" ++
  (match previous with
   | some p => "Previous summary:\n" ++ p ++ "\n\n"
   | none => "") ++
  String.join (email_data.map (fun pr => "Email: " ++ pr.1 ++ "\nResponse: " ++ pr.2 ++ "\n\n")) ++
  "Provide a concise summary while keeping important details."

/-- Embedding of `generate_the_new_summary` (lines 142-173): empty data returns `None`;
otherwise the summary model is called on the built prompt, a raised exception
(`none`) returning `None`. -/
def generate_the_new_summary (llm : String → Option String)
    (email_data : List (String × String)) (previous : Option String) : Option String :=
  if email_data.isEmpty then none
  else llm (buildSummaryPrompt previous email_data)

/-- Embedding of `update_email_summary` (lines 119-141): below the threshold nothing
happens; at or above it the latest pairs are fetched, but when at most
`max_history_pairs` rows come back the summary is skipped as insufficient;
otherwise a generated non-empty summary is persisted and the counter reset.
The second component observes the created summary (`None` when nothing was
persisted). -/
def update_email_summary (llm : String → Option String) (max_history_pairs : Nat)
    (db : HistDB) : HistDB × Option String :=
  if db.pairs_since_last_summary < max_history_pairs then (db, none)
  else
    let email_data := get_latest_email_pairs db max_history_pairs
    let previous := get_latest_summary db
    if email_data.length ≤ max_history_pairs then (db, none)
    else
      match generate_the_new_summary llm email_data previous with
      | some s =>
        if s = "" then (db, none)
        else ({ db with summaries := db.summaries ++ [s], pairs_since_last_summary := 0 }, some s)
      | none => (db, none)

/-! ### Claim C7 -/

/-- C7 counterexample: in a fresh session whose number of unsummarized pairs
has just reached the threshold (2 pairs, threshold 2), `update_email_summary`
creates nothing: the fetch returns exactly 2 rows, the `len(email_data) <=
max_history_pairs` guard calls that insufficient, and the store and counter
are left untouched — even though the summary model is available. -/
theorem update_email_summary_skips_at_threshold :
    update_email_summary (fun _ => some "S") 2
        ⟨[("e1", "r1"), ("e2", "r2")], [], 2⟩ =
      (⟨[("e1", "r1"), ("e2", "r2")], [], 2⟩, none) := by
  decide

/-- C7 amended: `update_email_summary` creates a summary record exactly when
the unsummarized-pair counter has reached `max_history_pairs` AND the session
fetch returns strictly more than `max_history_pairs` rows AND the model
produces a non-empty summary; the persisted summary is generated from the
prompt folding the prior latest summary with the fetched recent pairs, the
counter is reset, and `get_latest_summary` then retrieves precisely this most
recent record. -/
theorem update_email_summary_spec (llm : String → Option String)
    (max_history_pairs : Nat) (db : HistDB) :
    (db.pairs_since_last_summary < max_history_pairs →
      update_email_summary llm max_history_pairs db = (db, none)) ∧
    ((get_latest_email_pairs db max_history_pairs).length ≤ max_history_pairs →
      update_email_summary llm max_history_pairs db = (db, none)) ∧
    (max_history_pairs ≤ db.pairs_since_last_summary →
      max_history_pairs < (get_latest_email_pairs db max_history_pairs).length →
      (∀ s, llm (buildSummaryPrompt (get_latest_summary db)
              (get_latest_email_pairs db max_history_pairs)) = some s → s ≠ "" →
        update_email_summary llm max_history_pairs db =
          ({ db with summaries := db.summaries ++ [s], pairs_since_last_summary := 0 },
           some s) ∧
        get_latest_summary
          (update_email_summary llm max_history_pairs db).1 = some s) ∧
      (llm (buildSummaryPrompt (get_latest_summary db)
              (get_latest_email_pairs db max_history_pairs)) = none →
        update_email_summary llm max_history_pairs db = (db, none))) := by
  refine ⟨fun hlt => ?_, fun hle => ?_, fun hge hfetch => ⟨fun s hs hne => ?_, fun hnone => ?_⟩⟩
  · unfold update_email_summary
    simp [hlt]
  · unfold update_email_summary
    by_cases hlt : db.pairs_since_last_summary < max_history_pairs
    · simp [hlt]
    · simp [hlt, hle]
  · have hnil : ¬ (get_latest_email_pairs db max_history_pairs).isEmpty := by
      simp only [List.isEmpty_iff_length_eq_zero]
      omega
    have hres : update_email_summary llm max_history_pairs db =
        ({ db with summaries := db.summaries ++ [s], pairs_since_last_summary := 0 },
         some s) := by
      unfold update_email_summary generate_the_new_summary
      rw [if_neg (by omega), if_neg (by omega), if_neg (by simpa using hnil), hs]
      simp [hne]
    refine ⟨hres, ?_⟩
    rw [hres]
    simp [get_latest_summary]
  · have hnil : ¬ (get_latest_email_pairs db max_history_pairs).isEmpty := by
      simp only [List.isEmpty_iff_length_eq_zero]
      omega
    unfold update_email_summary generate_the_new_summary
    rw [if_neg (by omega), if_neg (by omega), if_neg (by simpa using hnil), hnone]

/-- Witness for C7 (amended): threshold 1, three stored rows, counter 1 — the
fetch returns 2 rows (> 1), the model answers `S`, and the summary is
persisted, retrievable as the latest, with the counter reset. -/
theorem update_email_summary_spec_witness :
    update_email_summary (fun _ => some "S") 1 ⟨[("e1", "r1"), ("e2", "r2")], [], 1⟩ =
      (⟨[("e1", "r1"), ("e2", "r2")], ["S"], 0⟩, some "S") := by
  have h := ((update_email_summary_spec (fun _ => some "S") 1
      ⟨[("e1", "r1"), ("e2", "r2")], [], 1⟩).2.2 (by decide) (by decide)).1
      "S" rfl (by decide)
  exact h.1

/-! ## Tool layer (`email_tools.py`, `execute_function_call`)

JSON argument values are modeled by `PyVal`; a parsed `function_args` dict is
an association list with distinct keys.  Python renders values into f-strings
with `str(...)`; the rendering is modeled by `pyValFmt` (eliding Python's
quoting of list reprs, which no claim depends on). -/

/-- JSON argument value. -/
inductive PyVal where
  | str (s : String)
  | int (n : Int)
  | strList (l : List String)
deriving DecidableEq

/-- Decimal rendering of an integer. -/
def intRepr (n : Int) : String :=
  if n < 0 then "-" ++ Nat.repr n.natAbs else Nat.repr n.natAbs

/-- Python `str(value)` rendering used inside f-strings (ASCII model). -/
def pyValFmt : PyVal → String
  | .str s => s
  | .int n => intRepr n
  | .strList l => "[" ++ String.intercalate ", " l ++ "]"

/-- Python `len(value)`: defined for strings and lists, a `TypeError` otherwise. -/
def pyLen : PyVal → Option Nat
  | .str s => some s.length
  | .int _ => none
  | .strList l => some l.length

/-- Argument dict of one function call. -/
abbrev ArgDict := List (String × PyVal)

/-- Key lookup in an argument dict. -/
def lookupArg (args : ArgDict) (k : String) : Option PyVal :=
  (args.find? (fun kv => kv.1 = k)).map (fun kv => kv.2)

/-- Python `f(**args)` binds exactly when the dict's key set equals the
declared parameter names (the tools declare no defaults). -/
def keysMatch (args : ArgDict) (ks : List String) : Bool :=
  ks.all (fun k => (args.map (fun kv => kv.1)).contains k) &&
  args.all (fun kv => ks.contains kv.1)

/-- Embedding of `write_email_tool` (`email_tools.py`, lines 13-21). -/
def write_email_tool («to» subject content : PyVal) : String × String :=
  ("Function call successful.",
   "Email prepared:\nTo: " ++ pyValFmt «to» ++ "\nSubject: " ++ pyValFmt subject ++
     "\n\n" ++ pyValFmt content)

/-- Embedding of `schedule_meeting_tool` (lines 23-35); `len(attendees)` raises a
`TypeError` for an int argument, modeled as an `Except.error` (the Python
quotes around the subject are elided from the rendering). -/
def schedule_meeting_tool (attendees subject duration_minutes preferred_day : PyVal) :
    Except String (String × String) :=
  match pyLen attendees with
  | none => .error "TypeError: object has no len()"
  | some n =>
    .ok ("Function call successful.",
      "Meeting " ++ pyValFmt subject ++ " scheduled for " ++ pyValFmt preferred_day ++
        " with " ++ Nat.repr n ++ " attendees for " ++ pyValFmt duration_minutes ++
        " minutes")

/-- Embedding of `check_calendar_availability_tool` (lines 37-43). -/
def check_calendar_availability_tool (day : PyVal) : String × String :=
  ("Function call successful.", "Available times on " ++ pyValFmt day ++
    ": 9:00 AM, 2:00 PM, 4:00 PM")

/-- Keyword dispatch (`**kwargs`) to `write_email_tool`. -/
def call_write_email_tool (args : ArgDict) : Except String (String × String) :=
  if keysMatch args ["to", "subject", "content"] then
    match lookupArg args "to", lookupArg args "subject", lookupArg args "content" with
    | some t, some s, some c => .ok (write_email_tool t s c)
    | _, _, _ => .error "TypeError: missing keyword argument"
  else .error "TypeError: unexpected or missing keyword argument"

/-- Keyword dispatch (`**kwargs`) to `schedule_meeting_tool`. -/
def call_schedule_meeting_tool (args : ArgDict) : Except String (String × String) :=
  if keysMatch args ["attendees", "subject", "duration_minutes", "preferred_day"] then
    match lookupArg args "attendees", lookupArg args "subject",
        lookupArg args "duration_minutes", lookupArg args "preferred_day" with
    | some a, some s, some d, some p => schedule_meeting_tool a s d p
    | _, _, _, _ => .error "TypeError: missing keyword argument"
  else .error "TypeError: unexpected or missing keyword argument"

/-- Keyword dispatch (`**kwargs`) to `check_calendar_availability_tool`. -/
def call_check_calendar_tool (args : ArgDict) : Except String (String × String) :=
  if keysMatch args ["day"] then
    match lookupArg args "day" with
    | some d => .ok (check_calendar_availability_tool d)
    | none => .error "TypeError: missing keyword argument"
  else .error "TypeError: unexpected or missing keyword argument"

/-- Embedding of `execute_function_call` (`email_agent_v4.py`, lines 81-139).  The two
tools whose bodies live outside the sources (`search_vector_db` on the
`VectorDBManager`, `add_user_info_to_database` on the `UserManager`) are
oracle parameters returning either a result pair or a raised exception's
text. -/
def execute_function_call
    (search_vector_db : ArgDict → Except String (String × String))
    (add_user_info_to_database : ArgDict → Except String (String × String))
    (function_name : String) (function_args : ArgDict) : String × String :=
  if function_name = "search_vector_db" then
    match search_vector_db function_args with
    | .ok r => r
    | .error e => ("Function call failed.", "Error searching VectorDB: " ++ e)
  else if function_name = "add_user_info_to_database" then
    match add_user_info_to_database function_args with
    | .ok r => r
    | .error e => ("Function call failed.", "Error updating user info: " ++ e)
  else if function_name = "write_email_tool" then
    match call_write_email_tool function_args with
    | .ok r => r
    | .error e => ("Function call failed.", "Error writing email: " ++ e)
  else if function_name = "schedule_meeting_tool" then
    match call_schedule_meeting_tool function_args with
    | .ok r => r
    | .error e => ("Function call failed.", "Error scheduling meeting: " ++ e)
  else if function_name = "check_calendar_availability_tool" then
    match call_check_calendar_tool function_args with
    | .ok r => r
    | .error e => ("Function call failed.", "Error checking calendar: " ++ e)
  else ("Function call failed.", "Unknown function: " ++ function_name)

/-- Raised-exception projection of a tool outcome. -/
def exceptError : Except String (String × String) → Option String
  | .error e => some e
  | .ok _ => none

/-- Exception raised by the dispatched tool, if any (observer mirroring the
dispatch structure of `execute_function_call`). -/
def dispatched_error
    (search_vector_db add_user_info_to_database : ArgDict → Except String (String × String))
    (function_name : String) (function_args : ArgDict) : Option String :=
  if function_name = "search_vector_db" then exceptError (search_vector_db function_args)
  else if function_name = "add_user_info_to_database" then
    exceptError (add_user_info_to_database function_args)
  else if function_name = "write_email_tool" then
    exceptError (call_write_email_tool function_args)
  else if function_name = "schedule_meeting_tool" then
    exceptError (call_schedule_meeting_tool function_args)
  else if function_name = "check_calendar_availability_tool" then
    exceptError (call_check_calendar_tool function_args)
  else none

/-- Error-message context prefixed by each dispatch branch. -/
def errContext (function_name : String) : String :=
  if function_name = "search_vector_db" then "Error searching VectorDB: "
  else if function_name = "add_user_info_to_database" then "Error updating user info: "
  else if function_name = "write_email_tool" then "Error writing email: "
  else if function_name = "schedule_meeting_tool" then "Error scheduling meeting: "
  else if function_name = "check_calendar_availability_tool" then "Error checking calendar: "
  else ""

/-! ### Claim C9 -/

/-- Successful `write_email_tool` dispatches carry the success marker. -/
theorem call_write_email_tool_ok (a : ArgDict) (r : String × String)
    (h : call_write_email_tool a = .ok r) : r.1 = "Function call successful." := by
  unfold call_write_email_tool at h
  split at h
  · split at h
    · cases h
      rfl
    · cases h
  · cases h

/-- Successful `schedule_meeting_tool` dispatches carry the success marker. -/
theorem call_schedule_meeting_tool_ok (a : ArgDict) (r : String × String)
    (h : call_schedule_meeting_tool a = .ok r) : r.1 = "Function call successful." := by
  unfold call_schedule_meeting_tool at h
  split at h
  · split at h
    · unfold schedule_meeting_tool at h
      split at h
      · cases h
      · cases h
        rfl
    · cases h
  · cases h

/-- Successful `check_calendar_availability_tool` dispatches carry the success
marker. -/
theorem call_check_calendar_tool_ok (a : ArgDict) (r : String × String)
    (h : call_check_calendar_tool a = .ok r) : r.1 = "Function call successful." := by
  unfold call_check_calendar_tool at h
  split at h
  · split at h
    · cases h
      rfl
    · cases h
  · cases h

/-- C9: for every function name and argument dict, `execute_function_call`
returns a `(status, detail)` pair with the status among the two markers
(assuming, per the tool contract, that the two externally-implemented tools
return marker statuses on success), and whenever the dispatched tool raises,
the result is the failure marker with the branch's error context followed by
the exception text. -/
theorem execute_function_call_contract
    (search_vector_db add_user_info_to_database : ArgDict → Except String (String × String))
    (function_name : String) (function_args : ArgDict)
    (hs : ∀ a r, search_vector_db a = .ok r →
      r.1 = "Function call successful." ∨ r.1 = "Function call failed.")
    (ha : ∀ a r, add_user_info_to_database a = .ok r →
      r.1 = "Function call successful." ∨ r.1 = "Function call failed.") :
    ((execute_function_call search_vector_db add_user_info_to_database
        function_name function_args).1 = "Function call successful." ∨
     (execute_function_call search_vector_db add_user_info_to_database
        function_name function_args).1 = "Function call failed.") ∧
    (∀ e, dispatched_error search_vector_db add_user_info_to_database
        function_name function_args = some e →
      execute_function_call search_vector_db add_user_info_to_database
          function_name function_args =
        ("Function call failed.", errContext function_name ++ e)) := by
  unfold execute_function_call dispatched_error errContext
  split_ifs with h1 h2 h3 h4 h5
  · cases hres : search_vector_db function_args with
    | ok r =>
      refine ⟨hs _ r hres, fun e he => ?_⟩
      simp [exceptError] at he
    | error e =>
      refine ⟨Or.inr rfl, fun e' he' => ?_⟩
      simp only [exceptError, Option.some.injEq] at he'
      rw [he']
  · cases hres : add_user_info_to_database function_args with
    | ok r =>
      refine ⟨ha _ r hres, fun e he => ?_⟩
      simp [exceptError] at he
    | error e =>
      refine ⟨Or.inr rfl, fun e' he' => ?_⟩
      simp only [exceptError, Option.some.injEq] at he'
      rw [he']
  · cases hres : call_write_email_tool function_args with
    | ok r =>
      refine ⟨Or.inl (call_write_email_tool_ok _ r hres), fun e he => ?_⟩
      simp [exceptError] at he
    | error e =>
      refine ⟨Or.inr rfl, fun e' he' => ?_⟩
      simp only [exceptError, Option.some.injEq] at he'
      rw [he']
  · cases hres : call_schedule_meeting_tool function_args with
    | ok r =>
      refine ⟨Or.inl (call_schedule_meeting_tool_ok _ r hres), fun e he => ?_⟩
      simp [exceptError] at he
    | error e =>
      refine ⟨Or.inr rfl, fun e' he' => ?_⟩
      simp only [exceptError, Option.some.injEq] at he'
      rw [he']
  · cases hres : call_check_calendar_tool function_args with
    | ok r =>
      refine ⟨Or.inl (call_check_calendar_tool_ok _ r hres), fun e he => ?_⟩
      simp [exceptError] at he
    | error e =>
      refine ⟨Or.inr rfl, fun e' he' => ?_⟩
      simp only [exceptError, Option.some.injEq] at he'
      rw [he']
  · exact ⟨Or.inr rfl, fun e he => by cases he⟩

/-- Witness for C9: a raising `search_vector_db` oracle produces the failure
marker with the exception text folded into the detail. -/
theorem execute_function_call_contract_witness :
    execute_function_call (fun _ => .error "boom")
        (fun _ => .ok ("Function call successful.", "ok")) "search_vector_db" [] =
      ("Function call failed.", "Error searching VectorDB: boom") := by
  have h := (execute_function_call_contract (fun _ => .error "boom")
      (fun _ => .ok ("Function call successful.", "ok")) "search_vector_db" []
      (fun a r hr => by cases hr)
      (fun a r hr => by cases hr; exact Or.inl rfl)).2 "boom" rfl
  exact h

/-! ## Tool orchestration loop (`email_agent_v4.py`, `_generate_response`)

The `while email_state != "finished"` loop is embedded as a structural
recursion over the script of model replies: each chat-completion call
consumes the next reply, and an exhausted script models a raised API
exception.  Memory loading and prompt assembly before the loop do not affect
the claims; the per-iteration rebuild of the function-result section, the
loop-detection logic, and the persistence of a final answer are modeled
faithfully.  `function_args` are modeled as already parsed (a JSON decode
failure only sets a failure state and records no signature, which no claim
exercises).  Store writes, warnings, executed tool calls, and the
function-result section current at each model call are recorded in the state
as explicit observations of the Python side effects. -/

/-- One function-call request from the model. -/
structure FunCall where
  name : String
  args : ArgDict
deriving DecidableEq

/-- One chat-completion reply: optional message content and optional
function-call request. -/
structure ModelReply where
  content : Option String
  function_call : Option FunCall
deriving DecidableEq

/-- Insertion of one key/value pair into a key-sorted association list. -/
def insertSortedArg (kv : String × PyVal) : ArgDict → ArgDict
  | [] => [kv]
  | x :: xs => if kv.1 < x.1 ∨ kv.1 = x.1 then kv :: x :: xs else x :: insertSortedArg kv xs

/-- Python `sorted(function_args.items())` (keys are distinct, so the key
order decides). -/
def sortArgs (args : ArgDict) : ArgDict :=
  args.foldr insertSortedArg []

/-- Rendering of the argument bullet lines of the function-result sections. -/
def fmtArgLines (args : ArgDict) : String :=
  String.join (args.map (fun kv => "  - " ++ kv.1 ++ ": " ++ pyValFmt kv.2 ++ "\n"))

/-- Section rebuilt after a successful tool call (lines 551-559). -/
def successSection (function_name : String) (function_args : ArgDict)
    (function_call_result : String) : String :=
  "## Function Call Executed\n\n" ++
  "- The assistant just called the function `" ++ function_name ++
    "` in response to the email.\n" ++
  "- Arguments provided:\n" ++ fmtArgLines function_args ++
  "- Outcome: ✅ Function call successful.\n\n" ++
  "Please proceed with the email response using the new context.\n\n" ++
  function_call_result

/-- Section rebuilt after a failed tool call (lines 564-570). -/
def failedSection (function_name : String) (function_args : ArgDict)
    (function_call_result : String) : String :=
  "## Function Call Attempted\n\n" ++
  "- The assistant attempted to call `" ++ function_name ++
    "` with the following arguments:\n" ++ fmtArgLines function_args ++
  "- Outcome: ❌ Function call failed. - " ++ function_call_result ++ "\n\n" ++
  "Please assist based on this result."

/-- Note synthesized when a repeated identical call is detected
(lines 741-743). -/
def loopDetectedSection (function_name : String) : String :=
  "# Function Call Loop Detected.\n\n" ++
  "                                The function `" ++ function_name ++
  "` was called repeatedly with the same arguments.\n" ++
  "                                Please conclude the email response based on the available information."

/-- Mutable state of one `_generate_response` invocation, with observation
fields for the side effects. -/
structure LoopState where
  email_state : String
  function_call_state : Option String
  function_name : String
  function_args : ArgDict
  function_call_result : String
  function_call_result_section : String
  function_call_history : List (String × ArgDict)
  function_call_count : Nat
  executed : List FunCall
  sql_rows : List (String × String)
  vec_docs : List String
  logs : List String
  sections_sent : List String
deriving DecidableEq

/-- State at entry of `_generate_response` (lines 490-494). -/
def initialLoopState : LoopState :=
  { email_state := "thinking"
    function_call_state := none
    function_name := ""
    function_args := []
    function_call_result := ""
    function_call_result_section := ""
    function_call_history := []
    function_call_count := 0
    executed := []
    sql_rows := []
    vec_docs := []
    logs := []
    sections_sent := [] }

/-- Environment of one `_generate_response` invocation: the tool executor
(`execute_function_call`, possibly with oracles wired in), the formatted user
message, and whether the SQL / vector-store writes succeed. -/
structure AgentCfg where
  exec : String → ArgDict → String × String
  user_message : String
  sql_ok : Bool
  vec_ok : Bool

/-- Top-of-iteration rebuild of the function-result section (lines 544-570):
a successful previous call also marks the state finished so that the model
gets one more composing turn. -/
def applyTopSection (st : LoopState) : LoopState :=
  match st.function_call_state with
  | some s =>
    if s = "Function call successful." then
      { st with
          email_state := "finished"
          function_call_result_section :=
            successSection st.function_name st.function_args st.function_call_result }
    else if s = "Function call failed." then
      { st with function_call_result_section :=
          failedSection st.function_name st.function_args st.function_call_result }
    else st
  | none => st

/-- Final-answer persistence (lines 635-678): the SQL write is attempted
first inside its own `try`, the vector write afterwards inside its own `try`;
each outcome is logged individually and neither failure voids the other or
the returned answer. -/
def persistAnswer (cfg : AgentCfg) (response : String) (st : LoopState) : LoopState :=
  let st :=
    if cfg.sql_ok then
      { st with
          sql_rows := st.sql_rows ++ [(cfg.user_message, response)]
          logs := st.logs ++ ["✅ Email saved to SQL DB"] }
    else { st with logs := st.logs ++ ["❌ Error updating SQL DB memory"] }
  let st := { st with email_state := "finished" }
  let st :=
    if cfg.vec_ok then
      { st with
          vec_docs := st.vec_docs ++
            ["email: " ++ cfg.user_message ++ ", response: " ++ response]
          logs := st.logs ++ ["✅ Email saved to VectorDB"] }
    else { st with logs := st.logs ++ ["❌ Error updating VectorDB memory"] }
  let st :=
    if cfg.sql_ok then st
    else { st with logs := st.logs ++
      ["⚠️ WARNING: Email response generated but NOT saved to SQL DB"] }
  let st :=
    if cfg.vec_ok then st
    else { st with logs := st.logs ++
      ["⚠️ WARNING: Email response generated but NOT saved to VectorDB"] }
  { st with function_call_state := none }

/-- Outcome of `_generate_response`: the returned string, abstracted. -/
inductive RunOutcome where
  | answered (response : Option String)
  | apiError
  | noValid
  | sentinel
deriving DecidableEq

/-- The `while email_state != "finished"` loop of `_generate_response`
(lines 541-783).  Each iteration first checks the loop guard, then rebuilds
the function-result section, then consumes one model reply.  Truthy message
content is the final answer: it is persisted and returned.  A function-call
request while the state is already `finished` forces one further tool-free
completion (consuming one more reply) whose content is returned.  Otherwise
the call's signature is checked against the history: a repeat sets the
loop-detected note and state `finished` and `continue`s — after which the
guard stops the loop — while a fresh signature is recorded and executed.  A
reply with neither content nor function call returns the warning; falling out
of the loop returns the dead-path sentinel (line 783). -/
def runLoop (cfg : AgentCfg) : List ModelReply → LoopState → RunOutcome × LoopState
  | [], st =>
    if st.email_state = "finished" then (.sentinel, st) else (.apiError, st)
  | reply :: rest, st =>
    if st.email_state = "finished" then (.sentinel, st)
    else
      let st := applyTopSection st
      let st := { st with sections_sent := st.sections_sent ++ [st.function_call_result_section] }
      if ¬ (reply.content.getD "" = "") then
        let response := reply.content.getD ""
        (.answered (some response), persistAnswer cfg response st)
      else
        match reply.function_call with
        | some fc =>
          if st.email_state = "finished" then
            match rest with
            | [] => (.apiError, st)
            | fb :: _ =>
              let st := { st with sections_sent :=
                st.sections_sent ++ [st.function_call_result_section] }
              match fb.content with
              | some response => (.answered (some response), persistAnswer cfg response st)
              | none => (.answered none, persistAnswer cfg "None" st)
          else
            let st :=
              { st with
                  function_call_count := st.function_call_count + 1
                  function_name := fc.name
                  function_args := fc.args }
            let sig := (fc.name, sortArgs fc.args)
            if sig ∈ st.function_call_history then
              let st :=
                { st with
                    function_call_result_section := loopDetectedSection fc.name
                    email_state := "finished" }
              runLoop cfg rest st
            else
              let st := { st with function_call_history := st.function_call_history ++ [sig] }
              let r := cfg.exec fc.name fc.args
              let st :=
                { st with
                    function_call_state := some r.1
                    function_call_result := r.2
                    executed := st.executed ++ [fc] }
              runLoop cfg rest st
        | none => (.noValid, st)

/-! ### Claims C2, C8 -/

/-- C2: the repeat-detection branch does not produce a finishing pass.  When
the first execution of a tool call fails and the model repeats the identical
signature, the branch sets the loop-detected note and state `finished` and
`continue`s — which exits the `while` loop, so `_generate_response` returns
the dead-path sentinel of line 783.  Here the model would have produced a
final answer on a third call (the script's last reply), yet only two model
calls happen, the tool runs exactly once, the synthesized note is never part
of any prompt sent, and nothing is persisted. -/
theorem repeat_detection_exits_without_finishing_pass :
    (runLoop
        ⟨execute_function_call (fun _ => .error "boom")
            (fun _ => .ok ("Function call successful.", "ok")), "m", true, true⟩
        [ModelReply.mk none (some ⟨"search_vector_db", [("query", PyVal.str "x")]⟩),
         ModelReply.mk none (some ⟨"search_vector_db", [("query", PyVal.str "x")]⟩),
         ModelReply.mk (some "final answer") none]
        initialLoopState).1 = RunOutcome.sentinel ∧
    (runLoop
        ⟨execute_function_call (fun _ => .error "boom")
            (fun _ => .ok ("Function call successful.", "ok")), "m", true, true⟩
        [ModelReply.mk none (some ⟨"search_vector_db", [("query", PyVal.str "x")]⟩),
         ModelReply.mk none (some ⟨"search_vector_db", [("query", PyVal.str "x")]⟩),
         ModelReply.mk (some "final answer") none]
        initialLoopState).2.executed = [⟨"search_vector_db", [("query", PyVal.str "x")]⟩] ∧
    (runLoop
        ⟨execute_function_call (fun _ => .error "boom")
            (fun _ => .ok ("Function call successful.", "ok")), "m", true, true⟩
        [ModelReply.mk none (some ⟨"search_vector_db", [("query", PyVal.str "x")]⟩),
         ModelReply.mk none (some ⟨"search_vector_db", [("query", PyVal.str "x")]⟩),
         ModelReply.mk (some "final answer") none]
        initialLoopState).2.sections_sent.length = 2 ∧
    loopDetectedSection "search_vector_db" ∉
      (runLoop
          ⟨execute_function_call (fun _ => .error "boom")
              (fun _ => .ok ("Function call successful.", "ok")), "m", true, true⟩
          [ModelReply.mk none (some ⟨"search_vector_db", [("query", PyVal.str "x")]⟩),
           ModelReply.mk none (some ⟨"search_vector_db", [("query", PyVal.str "x")]⟩),
           ModelReply.mk (some "final answer") none]
          initialLoopState).2.sections_sent ∧
    (runLoop
        ⟨execute_function_call (fun _ => .error "boom")
            (fun _ => .ok ("Function call successful.", "ok")), "m", true, true⟩
        [ModelReply.mk none (some ⟨"search_vector_db", [("query", PyVal.str "x")]⟩),
         ModelReply.mk none (some ⟨"search_vector_db", [("query", PyVal.str "x")]⟩),
         ModelReply.mk (some "final answer") none]
        initialLoopState).2.sql_rows = [] := by
  decide

/-- C8: once a truthy final answer arrives, persistence of the two stores is
independent: whatever the SQL and vector-store outcomes, the answer itself is
returned; the structured rows depend only on the SQL outcome (a vector-store
failure cannot void them); and each outcome is logged individually, the
vector failure both as an error and as a degraded-but-successful warning. -/
theorem persistence_independence
    (exec : String → ArgDict → String × String) (um : String) (sql_ok vec_ok : Bool)
    (c : String) (hc : ¬ (c = "")) (fcOpt : Option FunCall) (rest : List ModelReply) :
    (runLoop ⟨exec, um, sql_ok, vec_ok⟩ (ModelReply.mk (some c) fcOpt :: rest)
        initialLoopState).1 = RunOutcome.answered (some c) ∧
    (runLoop ⟨exec, um, sql_ok, vec_ok⟩ (ModelReply.mk (some c) fcOpt :: rest)
        initialLoopState).2.sql_rows = (if sql_ok then [(um, c)] else []) ∧
    (runLoop ⟨exec, um, sql_ok, vec_ok⟩ (ModelReply.mk (some c) fcOpt :: rest)
        initialLoopState).2.vec_docs =
      (if vec_ok then ["email: " ++ um ++ ", response: " ++ c] else []) ∧
    (vec_ok = false →
      "❌ Error updating VectorDB memory" ∈
        (runLoop ⟨exec, um, sql_ok, vec_ok⟩ (ModelReply.mk (some c) fcOpt :: rest)
          initialLoopState).2.logs ∧
      "⚠️ WARNING: Email response generated but NOT saved to VectorDB" ∈
        (runLoop ⟨exec, um, sql_ok, vec_ok⟩ (ModelReply.mk (some c) fcOpt :: rest)
          initialLoopState).2.logs) ∧
    (sql_ok = true →
      "✅ Email saved to SQL DB" ∈
        (runLoop ⟨exec, um, sql_ok, vec_ok⟩ (ModelReply.mk (some c) fcOpt :: rest)
          initialLoopState).2.logs) := by
  cases sql_ok <;> cases vec_ok <;>
    simp [runLoop, initialLoopState, applyTopSection, persistAnswer, hc]

/-- Witness for C8: with a succeeding SQL store and a failing vector store,
the generated answer is still returned, the SQL row is still present, and the
vector failure is logged as a warning. -/
theorem persistence_independence_witness :
    (runLoop ⟨fun _ _ => ("Function call successful.", ""), "u", true, false⟩
        [ModelReply.mk (some "hi") none] initialLoopState).1 =
      RunOutcome.answered (some "hi") ∧
    (runLoop ⟨fun _ _ => ("Function call successful.", ""), "u", true, false⟩
        [ModelReply.mk (some "hi") none] initialLoopState).2.sql_rows = [("u", "hi")] ∧
    "⚠️ WARNING: Email response generated but NOT saved to VectorDB" ∈
      (runLoop ⟨fun _ _ => ("Function call successful.", ""), "u", true, false⟩
        [ModelReply.mk (some "hi") none] initialLoopState).2.logs := by
  have h := persistence_independence (fun _ _ => ("Function call successful.", "")) "u"
    true false "hi" (by decide) none []
  exact ⟨h.1, by rw [h.2.1]; rfl, (h.2.2.2.1 rfl).2⟩

/-! ## Memory deduplication (`email_agent_v4.py`, `_deduplicate_memory`)

`_deduplicate_memory` re-parses formatted text with Python string operations:
`split` on a substring, `strip`, `lower`, and substring containment.  These
are modeled exactly on `List Char`. -/

/-- Scanner for Python `str.split(sep)` with non-empty `sep`: characters are
shifted into `buf`; as soon as `buf` ends with `sep` the part before it is
emitted and the buffer reset.  For a fixed-length separator the earliest
ending occurrence is also the leftmost starting one, so this finds exactly
Python's leftmost non-overlapping occurrences. -/
def splitGo (sep : List Char) : List Char → List Char → List (List Char)
  | buf, [] => [buf]
  | buf, c :: rest =>
    let buf' := buf ++ [c]
    if sep.isSuffixOf buf' then
      buf'.take (buf'.length - sep.length) :: splitGo sep [] rest
    else
      splitGo sep buf' rest

/-- Python `l.split(sep)` for a non-empty separator (Python raises on an
empty separator, which no call site uses). -/
def pySplit (l sep : List Char) : List (List Char) :=
  if sep.isEmpty then [l] else splitGo sep [] l

/-- Helper for Python substring containment. -/
def pyContainsAux (v : List Char) : List Char → Bool
  | [] => v.isEmpty
  | c :: t => v.isPrefixOf (c :: t) || pyContainsAux v t

/-- Python `v in s` substring containment. -/
def pyContains (s v : List Char) : Bool :=
  pyContainsAux v s

/-- Python `line.split(marker)[1].split('\n')[0].strip()`, or `none` when index 1
raises `IndexError` (fewer than two parts). -/
def extractAfter (marker line : List Char) : Option (List Char) :=
  match pySplit line marker with
  | _ :: p1 :: _ => some (pyStrip ((pySplit p1 ['\n']).headD []))
  | _ => none

/-- Identifier state extracted from the SQL history (lines 316-349):
the `sql_identifiers` set, the `sql_subject_sender_pairs` set, and the
running `current_subject` / `current_sender`. -/
structure DedupCtx where
  ids : List (List Char)
  pairs : List (List Char × List Char)
  curSubj : Option (List Char)
  curSend : Option (List Char)
deriving DecidableEq

/-- Application of the `Subject:` extraction result (lines 329-335): a
non-empty subject adds an identifier and becomes `current_subject`; an
`IndexError` (`none`) changes nothing. -/
def ctxStepSubjApply (ctx : DedupCtx) : Option (List Char) → DedupCtx
  | some subj =>
    if ¬ subj.isEmpty then
      { ctx with
          ids := ctx.ids ++ ["subject:".toList ++ pyLower subj]
          curSubj := some (pyLower subj) }
    else ctx
  | none => ctx

/-- First block of the per-line processing (lines 328-335). -/
def ctxStepSubj (ctx : DedupCtx) (line : List Char) : DedupCtx :=
  if pyContains (pyLower line) "subject:".toList then
    ctxStepSubjApply ctx (extractAfter "Subject:".toList line)
  else ctx

/-- Application of the `From:` extraction result (lines 337-345): a non-empty
sender adds an identifier, becomes `current_sender`, and records the
subject/sender pair when a `current_subject` exists. -/
def ctxStepFromApply (ctx : DedupCtx) : Option (List Char) → DedupCtx
  | some sender =>
    if ¬ sender.isEmpty then
      { ctx with
          ids := ctx.ids ++ ["sender:".toList ++ pyLower sender]
          curSend := some (pyLower sender)
          pairs := ctx.pairs ++
            (match ctx.curSubj with
             | some cs => [(cs, pyLower sender)]
             | none => []) }
    else ctx
  | none => ctx

/-- Second block (lines 336-345). -/
def ctxStepFrom (ctx : DedupCtx) (line : List Char) : DedupCtx :=
  if pyContains (pyLower line) "from:".toList then
    ctxStepFromApply ctx (extractAfter "From:".toList line)
  else ctx

/-- Application of the `email:` marker (lines 348-349). -/
def ctxStepEmailApply (ctx : DedupCtx) : Option (List Char) → DedupCtx
  | some cs => { ctx with ids := ctx.ids ++ ["email_subject:".toList ++ cs] }
  | none => ctx

/-- Third block (lines 347-349). -/
def ctxStepEmail (ctx : DedupCtx) (line : List Char) : DedupCtx :=
  if pyContains (pyLower line) "email:".toList then
    ctxStepEmailApply ctx ctx.curSubj
  else ctx

/-- Processing of one SQL-history line (lines 326-349), the three blocks in
sequence. -/
def ctxStep (ctx : DedupCtx) (line : List Char) : DedupCtx :=
  ctxStepEmail (ctxStepFrom (ctxStepSubj ctx line) line) line

/-- Identifier extraction over all lines of the SQL history. -/
def extractCtx (sql_history : List Char) : DedupCtx :=
  (pySplit sql_history ['\n']).foldl ctxStep ⟨[], [], none, none⟩

/-- Subject/sender extraction from one VectorDB section (lines 363-377): the
last parseable occurrence wins, and — unlike the history side — an empty
string is assigned rather than skipped. -/
def sectStep (st : Option (List Char) × Option (List Char)) (line : List Char) :
    Option (List Char) × Option (List Char) :=
  let s1 :=
    if pyContains (pyLower line) "subject:".toList then
      match extractAfter "Subject:".toList line with
      | some v => (some (pyLower v), st.2)
      | none => st
    else st
  if pyContains (pyLower line) "from:".toList then
    match extractAfter "From:".toList line with
    | some v => (s1.1, some (pyLower v))
    | none => s1
  else s1

/-- Subject/sender fields of one VectorDB section. -/
def sectionFields (s : List Char) : Option (List Char) × Option (List Char) :=
  (pySplit s ['\n']).foldl sectStep (none, none)

/-- Python `identifier.split(':')[1]` (used when at least two parts exist). -/
def idValue (ident : List Char) : List Char :=
  ((pySplit ident [':']).drop 1).headD []

/-- Second duplicate check (lines 387-390): both section fields truthy and
the pair recorded among the history pairs. -/
def pairFieldsDup (pairs : List (List Char × List Char)) :
    Option (List Char) × Option (List Char) → Bool
  | (some ss, some se) => !ss.isEmpty && !se.isEmpty && pairs.contains (ss, se)
  | _ => false

/-- Third duplicate check (lines 392-394): both current identifiers truthy
and contained in the lowercased section. -/
def curDup (sLower : List Char) : Option (List Char) → Option (List Char) → Bool
  | some cs, some ce =>
    !cs.isEmpty && !ce.isEmpty && pyContains sLower cs && pyContains sLower ce
  | _, _ => false

/-- The duplicate check for one section (lines 359-395): an identifier value
contained in the lowercased section, a subject+sender pair match, or both
`current_subject` and `current_sender` contained in the section. -/
def isDup (ctx : DedupCtx) (s : List Char) : Bool :=
  (ctx.ids.any (fun ident =>
    !ident.isEmpty && decide (1 < (pySplit ident [':']).length) &&
      pyContains (pyLower s) (idValue ident))) ||
  pairFieldsDup ctx.pairs (sectionFields s) ||
  curDup (pyLower s) ctx.curSubj ctx.curSend

/-- Python `'\n'.join(...)`. -/
def joinNL : List (List Char) → List Char
  | [] => []
  | [x] => x
  | x :: xs => x ++ '\n' :: joinNL xs

/-- The section marker re-prefixed to every kept section. -/
def RPEmarker : List Char :=
  "Relevant Past Email".toList

/-- Predicate deciding that a section survives the filter of lines 355-398:
non-blank and not a duplicate. -/
def keepSection (ctx : DedupCtx) (s : List Char) : Bool :=
  !(pyStrip s).isEmpty && !isDup ctx s

/-- Embedding of `_deduplicate_memory` (lines 296-407): blank recall returns the history
and an empty recall; blank history passes the recall through unfiltered;
otherwise the recall is split on the section marker, blank or duplicate
sections are dropped, and the survivors are re-prefixed with the marker and
joined with a newline (empty survivors collapse to an empty recall). -/
def deduplicate_memory (sql_history vectordb_memory : List Char) :
    List Char × List Char :=
  if vectordb_memory.isEmpty || (pyStrip vectordb_memory).isEmpty then
    (sql_history, [])
  else if sql_history.isEmpty || (pyStrip sql_history).isEmpty then
    ([], vectordb_memory)
  else if ((pySplit vectordb_memory RPEmarker).filter
      (keepSection (extractCtx sql_history))).isEmpty then
    (sql_history, [])
  else
    (sql_history,
     joinNL (((pySplit vectordb_memory RPEmarker).filter
        (keepSection (extractCtx sql_history))).map (fun s => RPEmarker ++ s)))

/-- Sections retained by the filter of `_deduplicate_memory` (the "filtered
recall set" of the claim), including the degenerate branches: a blank recall
retains nothing and a blank history retains the whole recall unfiltered. -/
def keptSections (sql_history vectordb_memory : List Char) : List (List Char) :=
  if vectordb_memory.isEmpty || (pyStrip vectordb_memory).isEmpty then []
  else if sql_history.isEmpty || (pyStrip sql_history).isEmpty then [vectordb_memory]
  else (pySplit vectordb_memory RPEmarker).filter (keepSection (extractCtx sql_history))

/-! ### Split-machine lemmas -/

/-- While no prefix of the consumed input completes an occurrence of the
separator, the scanner just extends its buffer. -/
theorem splitGo_append (sep : List Char) (a : List Char) :
    ∀ (l' buf : List Char), (∀ p, p <+: a → p ≠ [] → ¬ sep <:+ (buf ++ p)) →
    splitGo sep buf (a ++ l') = splitGo sep (buf ++ a) l' := by
  induction a with
  | nil => intro l' buf _; simp
  | cons c a' ih =>
    intro l' buf h
    have hnofire : ¬ sep.isSuffixOf (buf ++ [c]) = true := by
      rw [List.isSuffixOf_iff_suffix]
      exact h [c] ⟨a', rfl⟩ (by simp)
    have ihh : splitGo sep (buf ++ [c]) (a' ++ l') = splitGo sep ((buf ++ [c]) ++ a') l' := by
      refine ih l' (buf ++ [c]) ?_
      intro p hp hpne
      rw [List.append_assoc]
      exact h (c :: p) (by rw [List.cons_prefix_cons]; exact ⟨rfl, hp⟩) (by simp)
    show splitGo sep buf (c :: (a' ++ l')) = _
    rw [show splitGo sep buf (c :: (a' ++ l')) =
        if sep.isSuffixOf (buf ++ [c]) then
          (buf ++ [c]).take ((buf ++ [c]).length - sep.length) ::
            splitGo sep [] (a' ++ l')
        else splitGo sep (buf ++ [c]) (a' ++ l') from rfl]
    rw [if_neg hnofire, ihh, List.append_assoc]
    rfl

/-- A run that never completes an occurrence yields a single part. -/
theorem splitGo_no_occurrence (sep l buf : List Char)
    (h : ∀ p, p <+: l → p ≠ [] → ¬ sep <:+ (buf ++ p)) :
    splitGo sep buf l = [buf ++ l] := by
  have := splitGo_append sep l [] buf h
  rw [List.append_nil] at this
  rw [this]
  rfl

/-- Consuming exactly the separator (with no earlier completion) emits the
buffered part and restarts. -/
theorem splitGo_fire (sep : List Char) (hsep : sep ≠ []) (t buf : List Char)
    (h : ∀ p, p <+: sep → p ≠ sep → p ≠ [] → ¬ sep <:+ (buf ++ p)) :
    splitGo sep buf (sep ++ t) = buf :: splitGo sep [] t := by
  obtain ⟨s', c, rfl⟩ : ∃ s' c, sep = s' ++ [c] := by
    rcases List.eq_nil_or_concat sep with rfl | ⟨s', c, hc⟩
    · exact absurd rfl hsep
    · exact ⟨s', c, by simpa [List.concat_eq_append] using hc⟩
  rw [List.append_assoc]
  rw [splitGo_append (s' ++ [c]) s' ([c] ++ t) buf ?hpre]
  case hpre =>
    intro p hp hpne
    refine h p (hp.trans (List.prefix_append s' [c])) ?_ hpne
    intro hcontra
    have := hp.length_le
    rw [hcontra] at this
    simp at this
  show splitGo (s' ++ [c]) (buf ++ s') (c :: t) = _
  have hfire : (s' ++ [c]).isSuffixOf (buf ++ s' ++ [c]) = true := by
    rw [List.isSuffixOf_iff_suffix, List.append_assoc]
    exact List.suffix_append buf (s' ++ [c])
  rw [show splitGo (s' ++ [c]) (buf ++ s') (c :: t) =
      if (s' ++ [c]).isSuffixOf (buf ++ s' ++ [c]) then
        (buf ++ s' ++ [c]).take ((buf ++ s' ++ [c]).length - (s' ++ [c]).length) ::
          splitGo (s' ++ [c]) [] t
      else splitGo (s' ++ [c]) (buf ++ s' ++ [c]) t from rfl]
  rw [if_pos hfire]
  congr 1
  rw [List.append_assoc]
  have hlen : (buf ++ (s' ++ [c])).length - (s' ++ [c]).length = buf.length := by
    simp
  rw [hlen, List.take_left]

/-- The scanner never returns an empty list of parts. -/
theorem splitGo_ne_nil (sep : List Char) : ∀ (l buf : List Char), splitGo sep buf l ≠ [] := by
  intro l
  induction l with
  | nil => intro buf; simp [splitGo]
  | cons c rest ih =>
    intro buf
    show (if sep.isSuffixOf (buf ++ [c]) then _ :: splitGo sep [] rest
          else splitGo sep (buf ++ [c]) rest) ≠ []
    split
    · simp
    · exact ih (buf ++ [c])

/-- Every character of every part comes from the buffer or the input. -/
theorem splitGo_mem_subset (sep : List Char) :
    ∀ (l buf p : List Char), p ∈ splitGo sep buf l → ∀ c ∈ p, c ∈ buf ++ l := by
  intro l
  induction l with
  | nil =>
    intro buf p hp c hc
    simp only [splitGo, List.mem_singleton] at hp
    subst hp
    simpa using hc
  | cons d rest ih =>
    intro buf p hp c hc
    rw [show splitGo sep buf (d :: rest) =
        if sep.isSuffixOf (buf ++ [d]) then
          (buf ++ [d]).take ((buf ++ [d]).length - sep.length) :: splitGo sep [] rest
        else splitGo sep (buf ++ [d]) rest from rfl] at hp
    split at hp
    · rcases List.mem_cons.mp hp with rfl | hmem
      · have : c ∈ buf ++ [d] := (List.take_subset _ _) hc
        rcases List.mem_append.mp this with hb | hd
        · exact List.mem_append.mpr (Or.inl hb)
        · simp only [List.mem_singleton] at hd
          subst hd
          simp
      · have := ih [] p hmem c hc
        simp only [List.nil_append] at this
        exact List.mem_append.mpr (Or.inr (List.mem_cons_of_mem d this))
    · have := ih (buf ++ [d]) p hp c hc
      rcases List.mem_append.mp this with hbd | hr
      · rcases List.mem_append.mp hbd with hb | hd
        · exact List.mem_append.mpr (Or.inl hb)
        · simp only [List.mem_singleton] at hd
          subst hd
          simp
      · exact List.mem_append.mpr (Or.inr (List.mem_cons_of_mem d hr))

/-- No part produced by the scanner contains an occurrence of the separator. -/
theorem splitGo_parts_no_sep (sep : List Char) (hsep : sep ≠ []) :
    ∀ (l buf : List Char), (∀ q, q <+: buf → q ≠ [] → ¬ sep <:+ q) →
    ∀ p ∈ splitGo sep buf l, ¬ sep <:+: p := by
  intro l
  induction l with
  | nil =>
    intro buf hbuf p hp hinf
    simp only [splitGo, List.mem_singleton] at hp
    subst hp
    obtain ⟨s, t, hst⟩ := hinf
    refine hbuf (s ++ sep) ⟨t, hst⟩ (by simp [hsep]) (List.suffix_append s sep)
  | cons d rest ih =>
    intro buf hbuf p hp
    rw [show splitGo sep buf (d :: rest) =
        if sep.isSuffixOf (buf ++ [d]) then
          (buf ++ [d]).take ((buf ++ [d]).length - sep.length) :: splitGo sep [] rest
        else splitGo sep (buf ++ [d]) rest from rfl] at hp
    split at hp
    case isTrue hfire =>
      rw [List.isSuffixOf_iff_suffix] at hfire
      rcases List.mem_cons.mp hp with rfl | hmem
      · obtain ⟨z, hz⟩ := hfire
        intro hinf
        have hlensum : z.length + sep.length = buf.length + 1 := by
          have := congrArg List.length hz
          simpa using this
        rw [← hz] at hinf
        have hzlen : (z ++ sep).length - sep.length = z.length := by
          simp
        rw [hzlen, List.take_left] at hinf
        obtain ⟨s, t, hst⟩ := hinf
        have hq : (s ++ sep) <+: z := ⟨t, hst⟩
        have hzbuf : z <+: buf ++ [d] := ⟨sep, hz⟩
        have hqbuf : (s ++ sep) <+: buf := by
          refine List.prefix_of_prefix_length_le
            (hq.trans hzbuf) (List.prefix_append buf [d]) ?_
          have h1 : (s ++ sep).length ≤ z.length := hq.length_le
          have h2 : 1 ≤ sep.length := by
            cases sep with
            | nil => exact absurd rfl hsep
            | cons _ _ => simp
          simp only [List.length_append] at h1 ⊢
          omega
        exact hbuf (s ++ sep) hqbuf (by simp [hsep]) (List.suffix_append s sep)
      · exact ih [] (by intro q hq hqne; rw [List.prefix_nil] at hq; exact absurd hq hqne)
          p hmem
    case isFalse hnofire =>
      refine ih (buf ++ [d]) ?_ p hp
      intro q hq hqne
      rcases List.prefix_concat_iff.mp hq with rfl | hqbuf
      · rw [List.isSuffixOf_iff_suffix] at hnofire
        exact fun hc => hnofire hc
      · exact hbuf q hqbuf hqne

/-! ### Containment, lowercase and strip lemmas -/

/-- A singleton is an infix exactly when its character occurs. -/
theorem singleton_infix_iff_mem (c : Char) (l : List Char) : [c] <:+: l ↔ c ∈ l := by
  constructor
  · rintro ⟨s, t, rfl⟩
    simp
  · intro hc
    obtain ⟨s, t, rfl⟩ := List.append_of_mem hc
    exact ⟨s, t, by simp⟩

/-- Of two suffixes of the same list, the shorter is a suffix of the longer. -/
theorem suffix_of_suffix_length_le {x y l : List Char} (hx : x <:+ l) (hy : y <:+ l)
    (hlen : x.length ≤ y.length) : x <:+ y := by
  rw [← List.reverse_prefix] at hx hy ⊢
  exact List.prefix_of_prefix_length_le hx hy (by simpa using hlen)

/-- A suffix of a snoc list is empty or itself ends in the appended element. -/
theorem suffix_snoc_cases {v x : List Char} {c : Char} (h : v <:+ x ++ [c]) :
    v = [] ∨ ∃ v', v = v' ++ [c] := by
  obtain ⟨z, hz⟩ := h
  rcases List.eq_nil_or_concat v with rfl | ⟨v', c', hv⟩
  · exact Or.inl rfl
  · right
    rw [List.concat_eq_append] at hv
    subst hv
    have : (z ++ v') ++ [c'] = x ++ [c] := by
      rw [← hz, List.append_assoc]
    have hinj := List.append_inj this (by
      have := congrArg List.length this
      simp only [List.length_append, List.length_singleton] at this ⊢
      omega)
    obtain ⟨-, hc⟩ := hinj
    simp only [List.cons.injEq] at hc
    exact ⟨v', by rw [hc.1]⟩

/-- Appending a character that does not occur in `v` cannot create or destroy
an occurrence of `v`. -/
theorem infix_snoc_iff_of_not_mem {v x : List Char} {c : Char} (hc : c ∉ v) :
    v <:+: x ++ [c] ↔ v <:+: x := by
  constructor
  · rintro ⟨s, t, hst⟩
    rcases List.eq_nil_or_concat t with rfl | ⟨t', c', ht⟩
    · rw [List.append_nil] at hst
      have hsuf : v <:+ x ++ [c] := ⟨s, hst⟩
      rcases suffix_snoc_cases hsuf with rfl | ⟨v', rfl⟩
      · exact List.nil_infix
      · exact absurd (List.mem_append.mpr (Or.inr (List.mem_singleton_self c))) hc
    · rw [List.concat_eq_append] at ht
      subst ht
      have : (s ++ v ++ t') ++ [c'] = x ++ [c] := by
        rw [← hst]
        simp [List.append_assoc]
      have hinj := List.append_inj this (by
        have := congrArg List.length this
        simp only [List.length_append, List.length_singleton] at this ⊢
        omega)
      exact ⟨s, t', hinj.1⟩
  · intro h
    exact h.trans (List.infix_append [] x [c])

/-- The search `pyContains` decides the infix relation. -/
theorem pyContains_iff_infix (s v : List Char) : pyContains s v = true ↔ v <:+: s := by
  unfold pyContains
  induction s with
  | nil =>
    rw [show pyContainsAux v [] = v.isEmpty from rfl]
    simp only [List.isEmpty_iff, List.infix_nil]
  | cons c t ih =>
    rw [show pyContainsAux v (c :: t) = (v.isPrefixOf (c :: t) || pyContainsAux v t) from rfl]
    simp only [Bool.or_eq_true, List.isPrefixOf_iff_prefix, ih, List.infix_cons_iff]

/-- Containment is unaffected by appending a character that does not occur in
the needle. -/
theorem pyContains_snoc {v : List Char} {c : Char} (x : List Char) (hc : c ∉ v) :
    pyContains (x ++ [c]) v = pyContains x v := by
  rw [Bool.eq_iff_iff, pyContains_iff_infix, pyContains_iff_infix]
  exact infix_snoc_iff_of_not_mem hc

/-- Lowercasing fixes the newline character. -/
theorem lowerChar_nl : lowerChar '\n' = '\n' := rfl

/-- Only the newline lowercases to a newline. -/
theorem lowerChar_eq_nl {c : Char} (h : lowerChar c = '\n') : c = '\n' := by
  unfold lowerChar at h
  cases hfind : upperLowerPairs.find? (fun p => p.1 = c) with
  | none =>
    rw [hfind] at h
    exact h
  | some p =>
    rw [hfind] at h
    simp only [Option.map_some', Option.getD_some] at h
    have hmem : p ∈ upperLowerPairs := List.mem_of_find?_eq_some hfind
    have : ∀ q ∈ upperLowerPairs, q.2 ≠ '\n' := by decide
    exact absurd h (this p hmem)

/-- Lowercasing distributes over append. -/
theorem pyLower_append (a b : List Char) : pyLower (a ++ b) = pyLower a ++ pyLower b :=
  List.map_append lowerChar a b

/-- Lowercasing a snoc with a newline. -/
theorem pyLower_snoc_nl (k : List Char) : pyLower (k ++ ['\n']) = pyLower k ++ ['\n'] := by
  rw [pyLower_append]
  rfl

/-- Lowercasing cannot introduce a newline. -/
theorem nl_not_mem_pyLower {v : List Char} (h : '\n' ∉ v) : '\n' ∉ pyLower v := by
  intro hmem
  obtain ⟨c, hc, hlc⟩ := List.mem_map.mp hmem
  exact h (lowerChar_eq_nl hlc ▸ hc)

/-- Stripping ignores a trailing whitespace character. -/
theorem pyStrip_snoc_space {c : Char} (x : List Char) (hc : isSpaceChar c = true) :
    pyStrip (x ++ [c]) = pyStrip x := by
  unfold pyStrip
  rw [List.dropWhile_append]
  split
  case isTrue h =>
    rw [List.isEmpty_iff] at h
    rw [h]
    simp only [List.dropWhile, hc]
  case isFalse h =>
    rw [List.reverse_append]
    simp only [List.reverse_singleton, List.singleton_append]
    rw [List.dropWhile_cons_of_pos hc]

/-- A stripped list is empty exactly when everything was whitespace. -/
theorem pyStrip_eq_nil_iff (l : List Char) :
    pyStrip l = [] ↔ ∀ c ∈ l, isSpaceChar c = true := by
  unfold pyStrip
  constructor
  · intro h c hc
    rw [List.reverse_eq_nil_iff, List.dropWhile_eq_nil_iff] at h
    by_cases hdrop : c ∈ List.dropWhile isSpaceChar l
    · exact h c (List.mem_reverse.mpr hdrop)
    · have hsplit := List.takeWhile_append_dropWhile isSpaceChar l
      have : c ∈ List.takeWhile isSpaceChar l ++ List.dropWhile isSpaceChar l := by
        rw [hsplit]; exact hc
      rcases List.mem_append.mp this with htake | hd
      · exact List.mem_takeWhile_imp htake
      · exact absurd hd hdrop
  · intro h
    have h1 : List.dropWhile isSpaceChar l = [] := by
      rw [List.dropWhile_eq_nil_iff]
      exact h
    rw [h1]
    rfl

/-- A list containing a non-whitespace character does not strip to empty. -/
theorem pyStrip_ne_nil_of_mem {c : Char} {l : List Char} (hc : c ∈ l)
    (hns : isSpaceChar c = false) : pyStrip l ≠ [] := by
  intro h
  have := (pyStrip_eq_nil_iff l).mp h c hc
  rw [hns] at this
  cases this

/-- Characters of the stripped list come from the original. -/
theorem pyStrip_subset (l : List Char) : ∀ c ∈ pyStrip l, c ∈ l := by
  intro c hc
  unfold pyStrip at hc
  rw [List.mem_reverse] at hc
  have h1 := (List.dropWhile_sublist (l := (List.dropWhile isSpaceChar l).reverse)
    isSpaceChar).subset hc
  rw [List.mem_reverse] at h1
  exact (List.dropWhile_sublist isSpaceChar).subset h1

/-! ### Lemmas connecting `pySplit` to the deduplication parts -/

/-- Splitting with a non-empty separator is the scanner from the empty
buffer. -/
theorem pySplit_eq_go (l sep : List Char) (hsep : sep ≠ []) :
    pySplit l sep = splitGo sep [] l := by
  unfold pySplit
  rw [if_neg]
  simp [List.isEmpty_iff, hsep]

/-- Parts of a split contain no occurrence of the separator. -/
theorem pySplit_parts_no_sep {sep : List Char} (hsep : sep ≠ []) (l : List Char) :
    ∀ p ∈ pySplit l sep, ¬ sep <:+: p := by
  rw [pySplit_eq_go l sep hsep]
  refine splitGo_parts_no_sep sep hsep l [] ?_
  intro q hq hqne
  rw [List.prefix_nil] at hq
  exact absurd hq hqne

/-- Characters of split parts come from the input. -/
theorem pySplit_mem_subset {sep : List Char} (hsep : sep ≠ []) (l : List Char) :
    ∀ p ∈ pySplit l sep, ∀ c ∈ p, c ∈ l := by
  rw [pySplit_eq_go l sep hsep]
  intro p hp c hc
  have := splitGo_mem_subset sep l [] p hp c hc
  simpa using this

/-- For a single-character separator, appending that character appends one
empty part. -/
theorem splitGo_snoc_sep (c₀ : Char) :
    ∀ (k buf : List Char), splitGo [c₀] buf (k ++ [c₀]) = splitGo [c₀] buf k ++ [[]] := by
  intro k
  induction k with
  | nil =>
    intro buf
    rw [List.nil_append]
    rw [show splitGo [c₀] buf [c₀] =
        if [c₀].isSuffixOf (buf ++ [c₀]) then
          (buf ++ [c₀]).take ((buf ++ [c₀]).length - [c₀].length) :: splitGo [c₀] [] []
        else splitGo [c₀] (buf ++ [c₀]) [] from rfl]
    rw [if_pos (by rw [List.isSuffixOf_iff_suffix]; exact List.suffix_append buf [c₀])]
    have hlen : (buf ++ [c₀]).length - [c₀].length = buf.length := by simp
    rw [hlen, List.take_left]
    rfl
  | cons d k' ih =>
    intro buf
    rw [List.cons_append]
    rw [show splitGo [c₀] buf (d :: (k' ++ [c₀])) =
        if [c₀].isSuffixOf (buf ++ [d]) then
          (buf ++ [d]).take ((buf ++ [d]).length - [c₀].length) ::
            splitGo [c₀] [] (k' ++ [c₀])
        else splitGo [c₀] (buf ++ [d]) (k' ++ [c₀]) from rfl]
    rw [show splitGo [c₀] buf (d :: k') =
        if [c₀].isSuffixOf (buf ++ [d]) then
          (buf ++ [d]).take ((buf ++ [d]).length - [c₀].length) :: splitGo [c₀] [] k'
        else splitGo [c₀] (buf ++ [d]) k' from rfl]
    split
    · rw [ih []]
      rfl
    · exact ih (buf ++ [d])

/-- Splitting on a newline after appending a trailing newline appends one
empty line. -/
theorem pySplit_snoc_nl (k : List Char) :
    pySplit (k ++ ['\n']) ['\n'] = pySplit k ['\n'] ++ [[]] := by
  rw [pySplit_eq_go _ _ (by decide), pySplit_eq_go _ _ (by decide)]
  exact splitGo_snoc_sep '\n' k []

/-- The empty line extracted from a trailing newline changes no section
fields. -/
theorem sectStep_nil (st : Option (List Char) × Option (List Char)) :
    sectStep st [] = st := rfl

/-- Section fields are unaffected by a trailing newline. -/
theorem sectionFields_snoc (s : List Char) :
    sectionFields (s ++ ['\n']) = sectionFields s := by
  unfold sectionFields
  rw [pySplit_snoc_nl, List.foldl_append]
  rw [show List.foldl sectStep (List.foldl sectStep (none, none) (pySplit s ['\n'])) [[]] =
      sectStep (List.foldl sectStep (none, none) (pySplit s ['\n'])) [] from rfl]
  rw [sectStep_nil]

/-- Values produced by `extractAfter` contain no newline: the `.split('\n')[0]`
step cuts at the first newline. -/
theorem extractAfter_no_newline (marker line v : List Char)
    (h : extractAfter marker line = some v) : '\n' ∉ v := by
  unfold extractAfter at h
  split at h
  case _ p0 p1 ps heq =>
    rw [Option.some.injEq] at h
    subst h
    intro hmem
    have hmem1 := pyStrip_subset _ _ hmem
    cases hparts : pySplit p1 ['\n'] with
    | nil =>
      rw [hparts] at hmem1
      simp at hmem1
    | cons q0 qs =>
      rw [hparts] at hmem1
      simp only [List.headD_cons] at hmem1
      have hq0 : q0 ∈ pySplit p1 ['\n'] := by rw [hparts]; exact List.mem_cons_self q0 qs
      have hnosep := pySplit_parts_no_sep (by decide) p1 q0 hq0
      rw [singleton_infix_iff_mem] at hnosep
      exact hnosep hmem1
  case _ =>
    cases h

/-- An identifier without newline has a newline-free extracted value. -/
theorem idValue_no_nl {ident : List Char} (h : '\n' ∉ ident) : '\n' ∉ idValue ident := by
  unfold idValue
  cases hdrop : (pySplit ident [':']).drop 1 with
  | nil => simp
  | cons q0 qs =>
    simp only [List.headD_cons]
    intro hmem
    have hq0 : q0 ∈ pySplit ident [':'] := by
      have : q0 ∈ (pySplit ident [':']).drop 1 := by rw [hdrop]; exact List.mem_cons_self q0 qs
      exact List.drop_subset 1 _ this
    exact h (pySplit_mem_subset (by decide) ident q0 hq0 '\n' hmem)

/-- Pointwise-equal predicates give equal `any`. -/
theorem list_any_congr {α : Type} (l : List α) (f g : α → Bool)
    (h : ∀ x ∈ l, f x = g x) : l.any f = l.any g := by
  induction l with
  | nil => rfl
  | cons x xs ih =>
    simp only [List.any_cons]
    rw [h x (List.mem_cons_self x xs), ih (fun y hy => h y (List.mem_cons_of_mem x hy))]

/-- All identifier strings and current subject/sender values are
newline-free (they come from single lines cut at `split('\n')[0]`). -/
def CtxClean (ctx : DedupCtx) : Prop :=
  (∀ ident ∈ ctx.ids, '\n' ∉ ident) ∧
  (∀ cs, ctx.curSubj = some cs → '\n' ∉ cs) ∧
  (∀ ce, ctx.curSend = some ce → '\n' ∉ ce)

/-- A `marker:`-prefixed identifier built from an extracted value is
newline-free. -/
theorem built_ident_no_nl {key subj line marker : List Char}
    (hkey : '\n' ∉ key) (hsubj : extractAfter marker line = some subj) :
    '\n' ∉ key ++ pyLower subj := by
  intro hmem
  rcases List.mem_append.mp hmem with hk | hs
  · exact hkey hk
  · exact nl_not_mem_pyLower (extractAfter_no_newline marker line subj hsubj) hs

/-- The `Subject:` block preserves cleanliness. -/
theorem ctxStepSubj_clean (ctx : DedupCtx) (line : List Char) (h : CtxClean ctx) :
    CtxClean (ctxStepSubj ctx line) := by
  unfold ctxStepSubj
  split
  case isFalse => exact h
  case isTrue =>
    cases hex : extractAfter "Subject:".toList line with
    | none => exact h
    | some subj =>
      simp only [ctxStepSubjApply]
      split
      · refine ⟨?_, ?_, h.2.2⟩
        · intro ident hident
          rcases List.mem_append.mp hident with hold | hnew
          · exact h.1 ident hold
          · rw [List.mem_singleton] at hnew
            subst hnew
            exact built_ident_no_nl (by decide) hex
        · intro cs hcs
          rw [Option.some.injEq] at hcs
          subst hcs
          exact nl_not_mem_pyLower (extractAfter_no_newline _ _ _ hex)
      · exact h

/-- The `From:` block preserves cleanliness. -/
theorem ctxStepFrom_clean (ctx : DedupCtx) (line : List Char) (h : CtxClean ctx) :
    CtxClean (ctxStepFrom ctx line) := by
  unfold ctxStepFrom
  split
  case isFalse => exact h
  case isTrue =>
    cases hex : extractAfter "From:".toList line with
    | none => exact h
    | some sender =>
      simp only [ctxStepFromApply]
      split
      · refine ⟨?_, h.2.1, ?_⟩
        · intro ident hident
          rcases List.mem_append.mp hident with hold | hnew
          · exact h.1 ident hold
          · rw [List.mem_singleton] at hnew
            subst hnew
            exact built_ident_no_nl (by decide) hex
        · intro ce hce
          rw [Option.some.injEq] at hce
          subst hce
          exact nl_not_mem_pyLower (extractAfter_no_newline _ _ _ hex)
      · exact h

/-- The `email:` block preserves cleanliness. -/
theorem ctxStepEmail_clean (ctx : DedupCtx) (line : List Char) (h : CtxClean ctx) :
    CtxClean (ctxStepEmail ctx line) := by
  unfold ctxStepEmail
  split
  case isFalse => exact h
  case isTrue =>
    cases hcs : ctx.curSubj with
    | none => exact h
    | some cs =>
      simp only [ctxStepEmailApply]
      refine ⟨?_, ?_, h.2.2⟩
      · intro ident hident
        rcases List.mem_append.mp hident with hold | hnew
        · exact h.1 ident hold
        · rw [List.mem_singleton] at hnew
          subst hnew
          intro hmem
          rcases List.mem_append.mp hmem with hk | hv
          · exact absurd hk (by decide)
          · exact h.2.1 cs hcs hv
      · intro cs' hcs'
        have hsome : ctx.curSubj = some cs' := hcs'
        rw [hcs, Option.some.injEq] at hsome
        subst hsome
        exact h.2.1 cs hcs

/-- One full line step preserves cleanliness. -/
theorem ctxStep_clean (ctx : DedupCtx) (line : List Char) (h : CtxClean ctx) :
    CtxClean (ctxStep ctx line) :=
  ctxStepEmail_clean _ _ (ctxStepFrom_clean _ _ (ctxStepSubj_clean _ _ h))

/-- Folding clean contexts through line steps stays clean. -/
theorem foldl_ctxStep_clean (lines : List (List Char)) :
    ∀ ctx, CtxClean ctx → CtxClean (lines.foldl ctxStep ctx) := by
  induction lines with
  | nil => intro ctx h; exact h
  | cons line rest ih => intro ctx h; exact ih _ (ctxStep_clean ctx line h)

/-- The context extracted from any history is clean. -/
theorem extractCtx_clean (sql_history : List Char) : CtxClean (extractCtx sql_history) := by
  unfold extractCtx
  refine foldl_ctxStep_clean _ _ ⟨?_, ?_, ?_⟩
  · intro x hx
    cases hx
  · intro cs hcs
    cases hcs
  · intro ce hce
    cases hce

/-- The duplicate check ignores a trailing newline on the section. -/
theorem isDup_snoc (ctx : DedupCtx) (k : List Char) (h : CtxClean ctx) :
    isDup ctx (k ++ ['\n']) = isDup ctx k := by
  obtain ⟨ids, pairs, curSubj, curSend⟩ := ctx
  unfold isDup
  have h1 : ids.any (fun ident =>
        !ident.isEmpty && decide (1 < (pySplit ident [':']).length) &&
          pyContains (pyLower (k ++ ['\n'])) (idValue ident)) =
      ids.any (fun ident =>
        !ident.isEmpty && decide (1 < (pySplit ident [':']).length) &&
          pyContains (pyLower k) (idValue ident)) := by
    refine list_any_congr _ _ _ ?_
    intro ident hident
    rw [pyLower_snoc_nl, pyContains_snoc _ (idValue_no_nl (h.1 ident hident))]
  rw [h1, sectionFields_snoc]
  cases curSubj with
  | none => rfl
  | some cs =>
    cases curSend with
    | none => rfl
    | some ce =>
      have hcs : '\n' ∉ cs := h.2.1 cs rfl
      have hce : '\n' ∉ ce := h.2.2 ce rfl
      rw [pyLower_snoc_nl]
      rw [show curDup (pyLower k ++ ['\n']) (some cs) (some ce) =
          (!cs.isEmpty && !ce.isEmpty && pyContains (pyLower k ++ ['\n']) cs &&
            pyContains (pyLower k ++ ['\n']) ce) from rfl]
      rw [show curDup (pyLower k) (some cs) (some ce) =
          (!cs.isEmpty && !ce.isEmpty && pyContains (pyLower k) cs &&
            pyContains (pyLower k) ce) from rfl]
      rw [pyContains_snoc _ hcs, pyContains_snoc _ hce]

/-- The keep decision ignores a trailing newline on the section. -/
theorem keepSection_snoc (ctx : DedupCtx) (k : List Char) (h : CtxClean ctx) :
    keepSection ctx (k ++ ['\n']) = keepSection ctx k := by
  unfold keepSection
  rw [pyStrip_snoc_space k (by decide), isDup_snoc ctx k h]

/-- Sections as they reappear after the rebuilt join: every non-final section
gains a trailing newline. -/
def snocNL : List (List Char) → List (List Char)
  | [] => []
  | [x] => [x]
  | x :: xs => (x ++ ['\n']) :: snocNL xs

/-- Stripping cancels the trailing newlines introduced by the join. -/
theorem snocNL_map_pyStrip (ks : List (List Char)) :
    (snocNL ks).map pyStrip = ks.map pyStrip := by
  induction ks with
  | nil => rfl
  | cons x xs ih =>
    cases xs with
    | nil => rfl
    | cons y ys =>
      rw [show snocNL (x :: y :: ys) = (x ++ ['\n']) :: snocNL (y :: ys) from rfl]
      simp only [List.map_cons]
      rw [pyStrip_snoc_space x (by decide), ih]
      rfl

/-- Sections that were kept are still kept after gaining a trailing
newline. -/
theorem snocNL_keep (ctx : DedupCtx) (h : CtxClean ctx) :
    ∀ ks : List (List Char), (∀ k ∈ ks, keepSection ctx k = true) →
    ∀ p ∈ snocNL ks, keepSection ctx p = true := by
  intro ks
  induction ks with
  | nil =>
    intro _ p hp
    cases hp
  | cons x xs ih =>
    intro hks p hp
    cases xs with
    | nil =>
      rw [show snocNL [x] = [x] from rfl, List.mem_singleton] at hp
      subst hp
      exact hks p (List.mem_cons_self _ _)
    | cons y ys =>
      rw [show snocNL (x :: y :: ys) = (x ++ ['\n']) :: snocNL (y :: ys) from rfl] at hp
      rcases List.mem_cons.mp hp with rfl | hmem
      · rw [keepSection_snoc ctx x h]
        exact hks x (List.mem_cons_self _ _)
      · exact ih (fun k hk => hks k (List.mem_cons_of_mem x hk)) p hmem

/-- Splitting the rebuilt text: the scanner, started with any safe buffer, on
the marker-prefixed, newline-joined sections emits the buffer and then the
sections — every non-final one with a trailing newline. -/
theorem splitGo_joinNL {sep : List Char} (hsep : sep ≠ []) (hnl : '\n' ∉ sep) :
    ∀ ks : List (List Char), ks ≠ [] → (∀ k ∈ ks, ¬ sep <:+: k) →
    ∀ buf : List Char, (∀ p, p <+: sep → p ≠ sep → p ≠ [] → ¬ sep <:+ (buf ++ p)) →
    splitGo sep buf (joinNL (ks.map (fun s => sep ++ s))) = buf :: snocNL ks := by
  intro ks
  induction ks with
  | nil => intro hne; exact absurd rfl hne
  | cons k ks' ih =>
    intro _ hks buf hbuf
    cases ks' with
    | nil =>
      rw [show joinNL ([k].map (fun s => sep ++ s)) = sep ++ k from rfl]
      rw [splitGo_fire sep hsep k buf hbuf]
      have hnocc : ∀ p, p <+: k → p ≠ [] → ¬ sep <:+ ([] ++ p) := by
        intro p hp hpne hsuf
        rw [List.nil_append] at hsuf
        exact hks k (List.mem_cons_self _ _) (hsuf.isInfix.trans hp.isInfix)
      rw [splitGo_no_occurrence sep k [] hnocc, List.nil_append]
      rfl
    | cons k' ks'' =>
      have hkfree : ¬ sep <:+: k := hks k (List.mem_cons_self _ _)
      rw [show joinNL ((k :: k' :: ks'').map (fun s => sep ++ s)) =
          (sep ++ k) ++ '\n' :: joinNL ((k' :: ks'').map (fun s => sep ++ s)) from rfl]
      rw [List.append_assoc]
      rw [splitGo_fire sep hsep _ buf hbuf]
      congr 1
      have hre : k ++ '\n' :: joinNL ((k' :: ks'').map (fun s => sep ++ s)) =
          (k ++ ['\n']) ++ joinNL ((k' :: ks'').map (fun s => sep ++ s)) := by
        rw [List.append_assoc]
        rfl
      rw [hre]
      rw [splitGo_append sep (k ++ ['\n']) _ [] ?hnofire]
      case hnofire =>
        intro p hp hpne hsuf
        rw [List.nil_append] at hsuf
        rcases List.prefix_concat_iff.mp hp with rfl | hpk
        · rcases suffix_snoc_cases hsuf with rfl | ⟨sep', rfl⟩
          · exact hsep rfl
          · exact hnl (List.mem_append.mpr (Or.inr (List.mem_singleton_self _)))
        · exact hkfree (hsuf.isInfix.trans hpk.isInfix)
      rw [List.nil_append]
      rw [ih (by simp) (fun x hx => hks x (List.mem_cons_of_mem k hx)) (k ++ ['\n']) ?hbuf2]
      case hbuf2 =>
        intro p hp hpsep hpne hsuf
        have hp1 : ('\n' :: p) <:+ ((k ++ ['\n']) ++ p) := by
          have hassoc : (k ++ ['\n']) ++ p = k ++ ('\n' :: p) := by
            rw [List.append_assoc]
            rfl
          rw [hassoc]
          exact List.suffix_append k _
        have hplt : p.length < sep.length := by
          rcases lt_or_eq_of_le hp.length_le with hlt | heq
          · exact hlt
          · exact absurd (hp.eq_of_length heq) hpsep
        have hp2 : ('\n' :: p) <:+ sep := by
          refine suffix_of_suffix_length_le hp1 hsuf ?_
          simp only [List.length_cons]
          omega
        exact hnl (hp2.subset (List.mem_cons_self _ _))
      rfl

/-- Splitting the rebuilt recall text: one leading empty part, then the
kept sections, all but the last with a trailing newline. -/
theorem pySplit_joinNL {sep : List Char} (hsep : sep ≠ []) (hnl : '\n' ∉ sep)
    (ks : List (List Char)) (hne : ks ≠ []) (hks : ∀ k ∈ ks, ¬ sep <:+: k) :
    pySplit (joinNL (ks.map (fun s => sep ++ s))) sep = [] :: snocNL ks := by
  rw [pySplit_eq_go _ _ hsep]
  refine splitGo_joinNL hsep hnl ks hne hks [] ?_
  intro p hp hpsep hpne hsuf
  rw [List.nil_append] at hsuf
  have h1 := hsuf.length_le
  have h2 : p.length < sep.length := by
    rcases lt_or_eq_of_le hp.length_le with hlt | heq
    · exact hlt
    · exact absurd (hp.eq_of_length heq) hpsep
  omega

/-- C5 counterexample: re-merging the filtered recall is not idempotent at the
string level.  With a history about a different email and a recall holding two
non-duplicate sections, the first pass keeps both sections but the rebuilt
text gives every non-final section a trailing newline and the second pass
separates the sections by an extra newline, so the twice-filtered recall
differs from the once-filtered recall. -/
theorem deduplicate_memory_not_idempotent :
    (deduplicate_memory "Subject: zq\nFrom: wk@qq".toList
        (deduplicate_memory "Subject: zq\nFrom: wk@qq".toList
          ("Relevant Past Email 1:\nSubject: bb\nFrom: cc@dd\n\n" ++
           "Relevant Past Email 2:\nSubject: ee\nFrom: ff@gg\n").toList).2).2 ≠
      (deduplicate_memory "Subject: zq\nFrom: wk@qq".toList
        ("Relevant Past Email 1:\nSubject: bb\nFrom: cc@dd\n\n" ++
         "Relevant Past Email 2:\nSubject: ee\nFrom: ff@gg\n").toList).2 := by
  decide

/-- C5 amended: the merge is stable up to trailing whitespace.  Re-applying
`_deduplicate_memory` to the history together with the first application's
filtered recall retains exactly the same sections modulo the trailing
newline that the rebuild appends to every non-final section: the stripped
retained sections are unchanged.  (Exact string idempotence fails only
through this separator whitespace, as the counterexample shows.) -/
theorem deduplicate_memory_kept_stable (sql_history vectordb_memory : List Char) :
    (keptSections sql_history
        (deduplicate_memory sql_history vectordb_memory).2).map pyStrip =
      (keptSections sql_history vectordb_memory).map pyStrip := by
  by_cases hr : (vectordb_memory.isEmpty || (pyStrip vectordb_memory).isEmpty) = true
  · have h2 : (deduplicate_memory sql_history vectordb_memory).2 = [] := by
      unfold deduplicate_memory
      rw [if_pos hr]
    have h4 : keptSections sql_history vectordb_memory = [] := by
      unfold keptSections
      rw [if_pos hr]
    rw [h2, h4]
    rfl
  · by_cases hh : (sql_history.isEmpty || (pyStrip sql_history).isEmpty) = true
    · have h2 : (deduplicate_memory sql_history vectordb_memory).2 = vectordb_memory := by
        unfold deduplicate_memory
        rw [if_neg hr, if_pos hh]
      rw [h2]
    · by_cases hke : ((pySplit vectordb_memory RPEmarker).filter
          (keepSection (extractCtx sql_history))).isEmpty = true
      · have h2 : (deduplicate_memory sql_history vectordb_memory).2 = [] := by
          unfold deduplicate_memory
          rw [if_neg hr, if_neg hh, if_pos hke]
        have h4 : keptSections sql_history vectordb_memory = [] := by
          unfold keptSections
          rw [if_neg hr, if_neg hh]
          exact List.isEmpty_iff.mp hke
        rw [h2, h4]
        rfl
      · have h2 : (deduplicate_memory sql_history vectordb_memory).2 =
            joinNL (((pySplit vectordb_memory RPEmarker).filter
              (keepSection (extractCtx sql_history))).map (fun s => RPEmarker ++ s)) := by
          unfold deduplicate_memory
          rw [if_neg hr, if_neg hh, if_neg hke]
        set ks := (pySplit vectordb_memory RPEmarker).filter
          (keepSection (extractCtx sql_history)) with hksdef
        have hkne : ks ≠ [] := by
          intro hnil
          rw [hnil] at hke
          exact hke rfl
        have hfree : ∀ k ∈ ks, ¬ RPEmarker <:+: k := by
          intro k hk
          exact pySplit_parts_no_sep (by decide) vectordb_memory k
            (List.mem_filter.mp hk).1
        have hkeep : ∀ k ∈ ks, keepSection (extractCtx sql_history) k = true :=
          fun k hk => (List.mem_filter.mp hk).2
        set F := joinNL (ks.map (fun s => RPEmarker ++ s)) with hFdef
        obtain ⟨k0, kr, hks0⟩ : ∃ k0 kr, ks = k0 :: kr := by
          cases hcase : ks with
          | nil => exact absurd hcase hkne
          | cons a b => exact ⟨a, b, rfl⟩
        have hFw : ∃ w, F = RPEmarker ++ w := by
          rw [hFdef, hks0]
          cases kr with
          | nil => exact ⟨k0, rfl⟩
          | cons k1 kr' =>
            refine ⟨k0 ++ '\n' :: joinNL ((k1 :: kr').map (fun s => RPEmarker ++ s)), ?_⟩
            rw [show joinNL ((k0 :: k1 :: kr').map (fun s => RPEmarker ++ s)) =
                (RPEmarker ++ k0) ++ '\n' ::
                  joinNL ((k1 :: kr').map (fun s => RPEmarker ++ s)) from rfl]
            rw [List.append_assoc]
        obtain ⟨w, hFww⟩ := hFw
        have hRF : 'R' ∈ F := by
          rw [hFww]
          exact List.mem_append.mpr (Or.inl (by decide))
        have hcondF : ¬ ((F.isEmpty || (pyStrip F).isEmpty) = true) := by
          have hFne : F.isEmpty = false := by
            rw [List.isEmpty_eq_false]
            intro hnil
            rw [hnil] at hRF
            cases hRF
          have hFstrip : (pyStrip F).isEmpty = false := by
            rw [List.isEmpty_eq_false]
            exact pyStrip_ne_nil_of_mem hRF (by decide)
          rw [hFne, hFstrip]
          simp
        have hsplitF : pySplit F RPEmarker = [] :: snocNL ks :=
          pySplit_joinNL (by decide) (by decide) ks hkne hfree
        have h5 : keptSections sql_history F = snocNL ks := by
          unfold keptSections
          rw [if_neg hcondF, if_neg hh, hsplitF, List.filter_cons]
          rw [if_neg (by rw [show keepSection (extractCtx sql_history) [] = false from rfl]; simp)]
          exact List.filter_eq_self.mpr
            (snocNL_keep (extractCtx sql_history) (extractCtx_clean sql_history) ks hkeep)
        have h6 : keptSections sql_history vectordb_memory = ks := by
          unfold keptSections
          rw [if_neg hr, if_neg hh]
        rw [h2, h5, snocNL_map_pyStrip, h6]

end MailMem
